import Mathlib

/-!
# Verification of the sigint-project telemetry processors

Shallow embedding of the two streaming processors of the repository
(`scripts/processors/ble_processor.py` and `scripts/processors/sweep_processor.py`)
together with proofs about them.

Modelling conventions:
* Python floats are idealised as exact rationals (`ℚ`); `math.sqrt` and the
  derived quantities live in `ℝ` via `Real.sqrt`.
* Python `round(x, n)` (banker's rounding on binary floats) is idealised as
  round-half-up on exact values; the two differ only at exact midpoints.
* Python dicts are modelled as insertion-ordered association lists.
* Machine integers are `ℕ`/`ℤ` with explicit reductions mod `2 ^ w`.
* The external `hashlib` library is modelled by an executable SHA-256.
-/

namespace Sigint

/-! ## Generic helpers: insertion-ordered association lists (Python dict) -/

/-- First value bound to key `k`, like Python `d.get(k)` / `k in d`. -/
def alistGet {κ β : Type} [DecidableEq κ] (l : List (κ × β)) (k : κ) : Option β :=
  match l with
  | [] => none
  | (k₁, v₁) :: rest => if k₁ = k then some v₁ else alistGet rest k

/-- Source `d[k] = v`: replace the binding in place if the key exists, else append
(Python dicts keep insertion order). -/
def alistSet {κ β : Type} [DecidableEq κ] (l : List (κ × β)) (k : κ) (v : β) :
    List (κ × β) :=
  match l with
  | [] => [(k, v)]
  | (k₁, v₁) :: rest =>
    if k₁ = k then (k₁, v) :: rest else (k₁, v₁) :: alistSet rest k v

/-- Source `del d[k]`. -/
def alistDel {κ β : Type} [DecidableEq κ] (l : List (κ × β)) (k : κ) :
    List (κ × β) :=
  l.filter (fun p => p.1 ≠ k)

/-! ## Numeric conversions shared by both processors -/

/-- Python `int()` on a rational: truncation toward zero. -/
def pyInt (q : ℚ) : ℤ :=
  if 0 ≤ q then ⌊q⌋ else -⌊-q⌋

/-- Python `round()` to an integer, idealised as round-half-up on exact values. -/
def pyRound (q : ℚ) : ℤ :=
  ⌊q + 1 / 2⌋

/-- Python `round(x, 1)`, idealised as round-half-up on exact values. -/
noncomputable def round1 (x : ℝ) : ℝ :=
  (⌊x * 10 + 1 / 2⌋ : ℤ) / 10

/-- Python `round(x, 2)`, idealised as round-half-up on exact values. -/
noncomputable def round2 (x : ℝ) : ℝ :=
  (⌊x * 100 + 1 / 2⌋ : ℤ) / 100

/-! ## BLE data dewhitening (`ble_dewhiten`, ble_processor.py lines 128-144)

Bits are modelled as `Bool` (the source keeps them as int8 values 0/1 and
combines them with `^`, which on 0/1 values is exactly boolean xor).
-/

/-- One step of the 7-bit whitening LFSR (polynomial x^7 + x^4 + 1):
feedback = bit0 xor bit4; shift right; feedback becomes bit 6. -/
def lfsrNext (lfsr : ℕ) : ℕ :=
  let feedback := (lfsr &&& 1) ^^^ ((lfsr >>> 4) &&& 1)
  (lfsr >>> 1) ||| (feedback <<< 6)

/-- The xor-with-LFSR loop body of `ble_dewhiten`. -/
def dewhitenGo (lfsr : ℕ) : List Bool → List Bool
  | [] => []
  | b :: rest => (xor b (decide (lfsr &&& 1 = 1))) :: dewhitenGo (lfsrNext lfsr) rest

/-- Source `ble_dewhiten(data_bits, channel)`: initial LFSR state has bit 6 = 1 and
bits 0-5 = the 6-bit channel number. -/
def ble_dewhiten (dataBits : List Bool) (channel : ℕ) : List Bool :=
  dewhitenGo ((channel &&& 0x3F) ||| 0x40) dataBits

/-! ## Bit-to-byte packing (`bits_to_bytes`, ble_processor.py lines 147-158) -/

/-- Pack one group of up to 8 bits into a byte, LSB first (BLE convention). -/
def byteOfBits (bits : List Bool) : ℕ :=
  (List.range 8).foldl (fun val j => val ||| ((if bits.getD j false then 1 else 0) <<< j)) 0

/-- Source `bits_to_bytes(bits)`: `len(bits) // 8` bytes, LSB-first within each byte. -/
def bits_to_bytes (bits : List Bool) : List ℕ :=
  (List.range (bits.length / 8)).map (fun i => byteOfBits ((bits.drop (i * 8)).take 8))

/-! ## PDU header parsing and the payload-length filter
(`_find_and_decode_packets`, ble_processor.py lines 477-483) -/

/-- Source `pdu_type = header_bytes[0] & 0x0F`. -/
def pduTypeOfHeader (b0 : ℕ) : ℕ := b0 &&& 0x0F

/-- Source `tx_add = (header_bytes[0] >> 6) & 0x01`. -/
def txAddOfHeader (b0 : ℕ) : ℕ := (b0 >>> 6) &&& 0x01

/-- Source `payload_length = header_bytes[1] & 0x3F`. -/
def payloadLengthOfHeader (b1 : ℕ) : ℕ := b1 &&& 0x3F

/-- The sanity check `if payload_length < 6 or payload_length > 37: continue`:
`true` means the candidate is rejected. -/
def payloadLengthRejected (l : ℕ) : Bool :=
  decide (l < 6) || decide (l > 37)

/-! ## Frontend driver adapter (`capture_channel`, ble_processor.py lines 339-373)

The child process `hackrf_transfer` is an external collaborator; its possible
behaviours are modelled by `ChildOutcome`.  `completed rc out` is a normal exit
with return code `rc` and raw standard-output bytes `out`; `timeout`,
`notFound` and `osError` are the exceptions caught by the `except` clause
(`subprocess.TimeoutExpired`, `FileNotFoundError`, `OSError`).
-/

inductive ChildOutcome : Type
  | completed (returncode : ℤ) (stdout : List ℕ)
  | timeout
  | notFound
  | osError

/-- Source `np.frombuffer(raw, dtype=np.int8)`: reinterpret a byte as a signed 8-bit value. -/
def toInt8 (b : ℕ) : ℤ :=
  if b % 256 < 128 then (b % 256 : ℤ) else (b % 256 : ℤ) - 256

/-- Source `capture_channel`, after the child process ran: returns `none` on non-zero
exit status, short read, timeout or missing executable; on success the complex
dwell buffer as (re, im) pairs, each component an int8 value divided by 128.
The function is total: no exception escapes (the source catches
`TimeoutExpired`, `FileNotFoundError` and `OSError` and returns `None`). -/
def capture_channel (samplesPerDwell : ℕ) (outcome : ChildOutcome) :
    Option (List (ℚ × ℚ)) :=
  match outcome with
  | .completed rc out =>
    if rc ≠ 0 then none
    else if out.length < samplesPerDwell * 2 then none
    else
      some ((List.range samplesPerDwell).map (fun i =>
        ((toInt8 (out.getD (2 * i) 0) : ℚ) / 128,
         (toInt8 (out.getD (2 * i + 1) 0) : ℚ) / 128)))
  | .timeout => none
  | .notFound => none
  | .osError => none

/-! ## Deduplication (ble_processor.py lines 556-565 and `cleanup_dedup` 610-614)

The table `last_seen : signature -> last emission epoch time` is modelled over
an arbitrary key type (instantiated with `String` signatures).  The two
operations on it, in source order:
* the per-candidate check in `_find_and_decode_packets`: suppress when an
  entry younger than `DEDUP_SECONDS` exists, else record `now` and emit;
* `cleanup_dedup`: keep exactly the entries with `v > now - DEDUP_SECONDS*2`.
Epoch times are rationals.
-/

inductive DedupEvent (α : Type) : Type
  | attempt (sig : α) (t : ℚ)
  | cleanup (t : ℚ)

/-- Time at which an event happens. -/
def DedupEvent.time {α : Type} : DedupEvent α → ℚ
  | .attempt _ t => t
  | .cleanup t => t

/-- One dedup-relevant step; returns the new table and the emission (signature
and emission time) if one happened. -/
def dedupStep {α : Type} [DecidableEq α] (window : ℚ) (table : List (α × ℚ)) :
    DedupEvent α → List (α × ℚ) × Option (α × ℚ)
  | .attempt sig t =>
    match alistGet table sig with
    | some v =>
      if t - v < window then (table, none)
      else (alistSet table sig t, some (sig, t))
    | none => (alistSet table sig t, some (sig, t))
  | .cleanup t =>
    (table.filter (fun p => t - 2 * window < p.2), none)

/-- Process a whole event trace, collecting the emissions in order. -/
def dedupRun {α : Type} [DecidableEq α] (window : ℚ) (table : List (α × ℚ)) :
    List (DedupEvent α) → List (α × ℚ) × List (α × ℚ)
  | [] => (table, [])
  | e :: rest =>
    let (table₁, em) := dedupStep window table e
    let (table₂, ems) := dedupRun window table₁ rest
    (table₂, em.toList ++ ems)

/-! ## SHA-256 (model of the external `hashlib.sha256(...).hexdigest()`) -/

namespace SHA256

/-- Right rotation within 32 bits. -/
def rotr (n x : ℕ) : ℕ :=
  ((x >>> n) ||| (x <<< (32 - n))) % 4294967296

def smallSigma0 (x : ℕ) : ℕ := rotr 7 x ^^^ rotr 18 x ^^^ (x >>> 3)

def smallSigma1 (x : ℕ) : ℕ := rotr 17 x ^^^ rotr 19 x ^^^ (x >>> 10)

def bigSigma0 (x : ℕ) : ℕ := rotr 2 x ^^^ rotr 13 x ^^^ rotr 22 x

def bigSigma1 (x : ℕ) : ℕ := rotr 6 x ^^^ rotr 11 x ^^^ rotr 25 x

def ch (x y z : ℕ) : ℕ := (x &&& y) ^^^ ((x ^^^ 0xFFFFFFFF) &&& z)

def maj (x y z : ℕ) : ℕ := (x &&& y) ^^^ (x &&& z) ^^^ (y &&& z)

def K : List ℕ :=
  [1116352408, 1899447441, 3049323471, 3921009573, 961987163, 1508970993,
   2453635748, 2870763221, 3624381080, 310598401, 607225278, 1426881987,
   1925078388, 2162078206, 2614888103, 3248222580, 3835390401, 4022224774,
   264347078, 604807628, 770255983, 1249150122, 1555081692, 1996064986,
   2554220882, 2821834349, 2952996808, 3210313671, 3336571891, 3584528711,
   113926993, 338241895, 666307205, 773529912, 1294757372, 1396182291,
   1695183700, 1986661051, 2177026350, 2456956037, 2730485921, 2820302411,
   3259730800, 3345764771, 3516065817, 3600352804, 4094571909, 275423344,
   430227734, 506948616, 659060556, 883997877, 958139571, 1322822218,
   1537002063, 1747873779, 1955562222, 2024104815, 2227730452, 2361852424,
   2428436474, 2756734187, 3204031479, 3329325298]

def H0 : List ℕ :=
  [1779033703, 3144134277, 1013904242, 2773480762, 1359893119, 2600822924,
   528734635, 1541459225]

/-- Big-endian 8-byte encoding of a natural number. -/
def bigEndian8 (n : ℕ) : List ℕ :=
  (List.range 8).map (fun i => (n >>> (8 * (7 - i))) % 256)

/-- FIPS 180-4 padding: append 0x80, zeros to 56 mod 64, then the bit length. -/
def pad (msg : List ℕ) : List ℕ :=
  let r := (msg.length + 1) % 64
  msg ++ [0x80] ++ List.replicate ((120 - r) % 64) 0 ++ bigEndian8 (msg.length * 8)

/-- Split a byte list into 64-byte blocks. -/
def toBlocks : List ℕ → List (List ℕ)
  | [] => []
  | a :: rest => ((a :: rest).take 64) :: toBlocks ((a :: rest).drop 64)
termination_by l => l.length
decreasing_by simp [List.length_drop]; omega

/-- The 16 big-endian 32-bit words of one 64-byte block. -/
def blockWords (block : List ℕ) : List ℕ :=
  (List.range 16).map (fun i =>
    (block.getD (4 * i) 0) <<< 24 ||| (block.getD (4 * i + 1) 0) <<< 16 |||
    (block.getD (4 * i + 2) 0) <<< 8 ||| block.getD (4 * i + 3) 0)

/-- Message schedule W[0..63]. -/
def schedule (block : List ℕ) : List ℕ :=
  (List.range 48).foldl
    (fun w _ =>
      let t := w.length
      w ++ [(smallSigma1 (w.getD (t - 2) 0) + w.getD (t - 7) 0 +
             smallSigma0 (w.getD (t - 15) 0) + w.getD (t - 16) 0) % 4294967296])
    (blockWords block)

/-- One compression round on the working variables [a,b,c,d,e,f,g,h]. -/
def round (w : List ℕ) (st : List ℕ) (t : ℕ) : List ℕ :=
  let a := st.getD 0 0
  let b := st.getD 1 0
  let c := st.getD 2 0
  let d := st.getD 3 0
  let e := st.getD 4 0
  let f := st.getD 5 0
  let g := st.getD 6 0
  let h := st.getD 7 0
  let t1 := (h + bigSigma1 e + ch e f g + K.getD t 0 + w.getD t 0) % 4294967296
  let t2 := (bigSigma0 a + maj a b c) % 4294967296
  [(t1 + t2) % 4294967296, a, b, c, (d + t1) % 4294967296, e, f, g]

/-- Compress one block into the running hash value. -/
def processBlock (h : List ℕ) (block : List ℕ) : List ℕ :=
  let w := schedule block
  let st := (List.range 64).foldl (round w) h
  List.zipWith (fun x y => (x + y) % 4294967296) h st

/-- SHA-256 digest of a byte list, as 32 bytes. -/
def digest (msg : List ℕ) : List ℕ :=
  let h := (toBlocks (pad msg)).foldl processBlock H0
  h.foldr (fun word acc =>
    [word >>> 24 % 256, word >>> 16 % 256, word >>> 8 % 256, word % 256] ++ acc) []

def hexDigit (n : ℕ) : Char :=
  if n < 4 then ['0', '1', '2', '3'].getD n '0'
  else if n < 8 then ['4', '5', '6', '7'].getD (n - 4) '0'
  else if n < 12 then ['8', '9', 'a', 'b'].getD (n - 8) '0'
  else ['c', 'd', 'e', 'f'].getD (n - 12) '0'

/-- Two lowercase hex characters of one byte. -/
def hexByte (b : ℕ) : String :=
  String.mk [hexDigit (b / 16 % 16), hexDigit (b % 16)]

/-- Lowercase hex digest of a byte list. -/
def hexOfBytes (bs : List ℕ) : String :=
  String.join (bs.map hexByte)

end SHA256

/-- UTF-8 bytes of a string (Python `str.encode()`). -/
def strBytes (s : String) : List ℕ :=
  s.toUTF8.toList.map (fun b => b.toNat)

/-- Source `hashlib.sha256(s.encode()).hexdigest()`. -/
def sha256hex (s : String) : String :=
  SHA256.hexOfBytes (SHA256.digest (strBytes s))

/-! ## Signatures (`compute_signature` in both processors, `hash_mac`) -/

/-- Source `compute_signature(protocol, key_parts)`:
hex SHA-256 of `"rf-telemetry-v1:" + protocol + ":" + key_parts`. -/
def compute_signature (protocol keyParts : String) : String :=
  sha256hex ("rf-telemetry-v1:" ++ protocol ++ ":" ++ keyParts)

/-- Source `hash_mac(mac_bytes)`: SHA-256 of the 6 raw address bytes, truncated to the
first 16 hex characters. -/
def hash_mac (macBytes : List ℕ) : String :=
  (SHA256.hexOfBytes (SHA256.digest macBytes)).take 16

/-- Source `ADV_TYPES.get(pdu_type, f"UNKNOWN_{pdu_type}")`. -/
def advTypeName (pduType : ℕ) : String :=
  match pduType with
  | 0 => "ADV_IND"
  | 1 => "ADV_DIRECT_IND"
  | 2 => "ADV_NONCONN_IND"
  | 3 => "SCAN_REQ"
  | 4 => "SCAN_RSP"
  | 5 => "CONNECT_IND"
  | 6 => "ADV_SCAN_IND"
  | n => "UNKNOWN_" ++ toString n

/-! ## Sweep processor (sweep_processor.py)

Configuration values read from the environment (`SWEEP_BASELINE_SECONDS`,
`SWEEP_ANOMALY_SIGMA`, `SWEEP_EMIT_INTERVAL`, `SWEEP_MIN_STREAK`).
`emit_interval` and `min_streak` are naturals (the defaults are 10 and 2;
nonpositive values would crash or degenerate the Python source). -/

structure SweepConfig where
  baseline_seconds : ℚ
  anomaly_sigma : ℚ
  emit_interval : ℕ
  min_streak : ℕ

/-- The defaults of the configuration table. -/
def defaultConfig : SweepConfig := ⟨300, 3, 10, 2⟩

/-- Source `EMA_ALPHA = 0.01`. -/
def EMA_ALPHA : ℚ := 1 / 100

/-- Source `NAMED_BANDS` (name, low Hz, high Hz). -/
def NAMED_BANDS : List (String × ℚ × ℚ) :=
  [("ISM 315M", 300000000, 330000000),
   ("ISM 433M", 420000000, 450000000),
   ("ISM 868M", 863000000, 870000000),
   ("ISM 915M", 902000000, 928000000),
   ("GPS L1", 1565000000, 1585000000),
   ("WiFi 2.4G", 2400000000, 2500000000),
   ("ISM 5.8G", 5725000000, 5875000000)]

/-- Source `freq_to_band_name`: first named band containing the frequency, else a
generic label (`"<mhz>M"` below 1000 MHz, `"<g.g>G"` above; the `:.1f`
format is idealised as round-half-up to one decimal). -/
def freq_to_band_name (freq_hz : ℚ) : String :=
  match NAMED_BANDS.find? (fun b => decide (b.2.1 ≤ freq_hz) && decide (freq_hz ≤ b.2.2)) with
  | some b => b.1
  | none =>
    let mhz := pyRound (freq_hz / 1000000)
    if 1000 ≤ mhz then
      let r := pyRound ((mhz : ℚ) / 100)
      toString (r / 10) ++ "." ++ toString (r % 10) ++ "G"
    else
      toString mhz ++ "M"

/-- Per-bin statistics (`BinStats`): Welford during learning, EMA afterwards.
Float fields are exact rationals. -/
structure BinStats where
  count : ℕ
  mean : ℚ
  m2 : ℚ
  ema_mean : ℚ
  ema_var : ℚ
  learning : Bool

/-- Source `BinStats()`. -/
def BinStats.init : BinStats := ⟨0, 0, 0, 0, 0, true⟩

/-- Source `BinStats.update(value)`: Welford while the bin is learning (the count is
incremented before the mean update divides by it), EMA afterwards. -/
def BinStats.update (s : BinStats) (value : ℚ) : BinStats :=
  if s.learning then
    let count := s.count + 1
    let delta := value - s.mean
    let mean := s.mean + delta / count
    let delta2 := value - mean
    { s with count := count, mean := mean, m2 := s.m2 + delta * delta2 }
  else
    let delta := value - s.ema_mean
    let ema_mean := s.ema_mean + EMA_ALPHA * delta
    { s with ema_mean := ema_mean,
             ema_var := (1 - EMA_ALPHA) * (s.ema_var + EMA_ALPHA * delta * delta) }

/-- Source `BinStats.variance` (sample variance `m2 / (count - 1)`, 0 for `count < 2`). -/
def BinStats.variance (s : BinStats) : ℚ :=
  if s.count < 2 then 0 else s.m2 / ((s.count : ℚ) - 1)

/-- Source `BinStats.finalize_learning()`: switch to EMA tracking, seeding the EMA
mean/variance from Welford and flooring the variance at 0.1. -/
def BinStats.finalize_learning (s : BinStats) : BinStats :=
  let v := s.variance
  { s with learning := false, ema_mean := s.mean,
           ema_var := if v < 1 / 10 then 1 / 10 else v }

open scoped Classical in
/-- Source `BinStats.stddev` (`math.sqrt` of the active variance, 0 when that
variance is not positive). -/
noncomputable def BinStats.stddev (s : BinStats) : ℝ :=
  if s.learning then
    (if 0 < s.variance then Real.sqrt (s.variance : ℝ) else 0)
  else
    (if 0 < s.ema_var then Real.sqrt (s.ema_var : ℝ) else 0)

open scoped Classical in
/-- Source `BinStats.current_mean`. -/
def BinStats.current_mean (s : BinStats) : ℚ :=
  if s.learning then s.mean else s.ema_mean

open scoped Classical in
/-- Source `BinStats.deviation_sigma(value)`: 0 when the standard deviation is below
0.01, else the signed deviation in units of the standard deviation. -/
noncomputable def BinStats.deviation_sigma (s : BinStats) (value : ℚ) : ℝ :=
  if s.stddev < 1 / 100 then 0
  else ((value : ℚ) - s.current_mean) / s.stddev

/-! ### Observation records (the NDJSON lines written to stdout)

`observedAt` keeps the (rational) emission time rather than its RFC3339
rendering.  The optional advertising-data fields of `ble-adv` records
(flags, deviceName, txPower, serviceUuids, manufacturer and continuity
fields, trackerType) are not modelled: no claim refers to them. -/

structure AnomalyFields where
  band : String
  binWidthHz : ℤ
  measuredPower : ℝ
  baselinePower : ℝ
  deviationSigma : ℝ
  anomalyType : String

structure BaselineFields where
  band : String
  meanPower : ℝ
  minPower : ℝ
  maxPower : ℝ
  stdPower : ℝ
  binCount : ℕ

structure EnergyFields where
  channel : ℕ
  peakPower : ℝ
  burstCount : ℕ
  dwellMs : ℕ
  noiseBaseline : ℝ
  noiseStddev : ℝ
  noiseDeviation : ℝ

structure AdvFields where
  channel : ℕ
  macHash : String
  advType : String
  crcValid : Bool
  addressType : String
  fingerprintId : String
  cfoHz : ℝ

inductive ObsFields : Type
  | anomaly : AnomalyFields → ObsFields
  | baseline : BaselineFields → ObsFields
  | energy : EnergyFields → ObsFields
  | adv : AdvFields → ObsFields

structure Obs where
  observedAt : ℚ
  protocol : String
  frequencyHz : ℤ
  rssi : ℝ
  noise : ℝ
  snr : Option ℝ
  modulation : Option String
  signature : String
  fields : ObsFields

/-- Source `_emit_anomaly(freq_hz, power_db, baseline_db, sigma)`: the observation it
writes (band and anomaly type are decided here, at emit time). -/
noncomputable def anomalyObs (t : ℚ) (freq_hz : ℤ) (power_db baseline_db : ℚ)
    (sigma : ℝ) : Obs :=
  let band := freq_to_band_name (freq_hz : ℚ)
  let anomaly_type := if baseline_db < power_db then "power-spike" else "power-drop"
  { observedAt := t
    protocol := "spectrum-anomaly"
    frequencyHz := freq_hz
    rssi := round1 (power_db : ℝ)
    noise := round1 (baseline_db : ℝ)
    snr := none
    modulation := none
    signature := compute_signature ("spectrum-anomaly")
      ("band=" ++ band ++ "&type=" ++ anomaly_type)
    fields := .anomaly ⟨band, 1000000, round1 (power_db : ℝ),
      round1 (baseline_db : ℝ), round1 sigma, anomaly_type⟩ }

/-- Smallest element of a list (`np.min`; the source only applies it to
nonempty lists). -/
def listMin : List ℚ → ℚ
  | [] => 0
  | h :: t => t.foldl min h

/-- Largest element of a list (`np.max`). -/
def listMax : List ℚ → ℚ
  | [] => 0
  | h :: t => t.foldl max h

/-- One `spectrum-baseline` observation of `_emit_baseline_summary` for a band
with contributing per-bin means `powers` (`np.std` is the population standard
deviation). -/
noncomputable def baselineObs (t : ℚ) (band : String) (powers : List ℚ) : Obs :=
  let n : ℕ := powers.length
  let meanP : ℚ := powers.sum / n
  let minP : ℚ := listMin powers
  let maxP : ℚ := listMax powers
  let stdP : ℝ := Real.sqrt ((((powers.map (fun x => (x - meanP) ^ 2)).sum / n : ℚ)) : ℝ)
  let rep : ℤ :=
    match NAMED_BANDS.find? (fun b => decide (b.1 = band)) with
    | some b => pyInt ((b.2.1 + b.2.2) / 2)
    | none => 0
  { observedAt := t
    protocol := "spectrum-baseline"
    frequencyHz := rep
    rssi := round1 (meanP : ℝ)
    noise := round1 (minP : ℝ)
    snr := none
    modulation := none
    signature := compute_signature ("spectrum-baseline") ("band=" ++ band)
    fields := .baseline ⟨band, round1 (meanP : ℝ), round1 (minP : ℝ),
      round1 (maxP : ℝ), round2 stdP, n⟩ }

/-- The mutable state of the `SweepProcessor` instance, plus the stream of
observations written to stdout so far. -/
structure SweepProcessor where
  bins : List (ℤ × BinStats)
  streaks : List (ℤ × ℕ)
  emitted : List (ℤ × Bool)
  start_time : Option ℚ
  learning : Bool
  sweep_count : ℕ
  anomaly_count : ℕ
  emissions : List Obs

/-- Source `SweepProcessor()`. -/
def SweepProcessor.init : SweepProcessor :=
  ⟨[], [], [], none, true, 0, 0, []⟩

/-- Source `_finalize_learning()`: clear the global learning flag and promote every
bin with at least 3 samples. -/
def SweepProcessor.finalize_learning (st : SweepProcessor) : SweepProcessor :=
  { st with learning := false,
            bins := st.bins.map (fun p =>
              (p.1, if 3 ≤ p.2.count then p.2.finalize_learning else p.2)) }

open scoped Classical in
/-- Source `_check_anomaly(freq_hz, power_db, sigma, stats)`: streak hysteresis and
at most one emission per streak; the streak and emitted flag are dropped
whenever `sigma` fails the `> ANOMALY_SIGMA` test. -/
noncomputable def SweepProcessor.check_anomaly (st : SweepProcessor) (cfg : SweepConfig)
    (t : ℚ) (freq_hz : ℤ) (power_db : ℚ) (sigma : ℝ) (stats : BinStats) :
    SweepProcessor :=
  if (cfg.anomaly_sigma : ℝ) < sigma then
    let streak := (alistGet st.streaks freq_hz).getD 0 + 1
    let st := { st with streaks := alistSet st.streaks freq_hz streak }
    if cfg.min_streak ≤ streak ∧ (alistGet st.emitted freq_hz).getD false = false then
      { st with
        emissions := st.emissions ++ [anomalyObs t freq_hz power_db stats.current_mean sigma]
        emitted := alistSet st.emitted freq_hz true
        anomaly_count := st.anomaly_count + 1 }
    else st
  else
    { st with streaks := alistDel st.streaks freq_hz,
              emitted := alistDel st.emitted freq_hz }

/-- Source `_emit_baseline_summary()`: group promoted-or-rich bins (count ≥ 3) by
band name in bin insertion order, then emit one baseline record per band. -/
noncomputable def SweepProcessor.emit_baseline_summary (st : SweepProcessor) (t : ℚ) :
    SweepProcessor :=
  let band_data : List (String × List ℚ) :=
    st.bins.foldl (fun acc p =>
      if p.2.count < 3 then acc
      else
        let band := freq_to_band_name (p.1 : ℚ)
        alistSet acc band (((alistGet acc band).getD []) ++ [p.2.current_mean])) []
  { st with emissions := st.emissions ++
      (band_data.filter (fun b => ¬ b.2.isEmpty)).map (fun b => baselineObs t b.1 b.2) }

open scoped Classical in
/-- The body of the per-bin loop of `process_line` (lines 176-187): create the
bin if needed, update it, and — once the global learning phase is over — run
the anomaly check with the freshly updated statistics. -/
noncomputable def SweepProcessor.process_bin (st : SweepProcessor) (cfg : SweepConfig)
    (t : ℚ) (hz_low hz_bin_width : ℚ) (i : ℕ) (db : ℚ) : SweepProcessor :=
  let center_freq : ℤ := pyInt (hz_low + hz_bin_width * i + hz_bin_width / 2)
  let stats := ((alistGet st.bins center_freq).getD BinStats.init).update db
  let st := { st with bins := alistSet st.bins center_freq stats }
  if st.learning then st
  else st.check_anomaly cfg t center_freq db (stats.deviation_sigma db) stats

open scoped Classical in
/-- Source `process_line` on an already-parsed CSV line (the date/time fields, and
parse failures which drop the line, are outside every claim): record the
start time, finalize learning after `baseline_seconds`, process every bin,
and count sweeps / emit baseline summaries when `hz_low < 10 MHz`. -/
noncomputable def SweepProcessor.process_line (st : SweepProcessor) (cfg : SweepConfig)
    (t : ℚ) (hz_low hz_bin_width : ℚ) (db_values : List ℚ) : SweepProcessor :=
  let st := if st.start_time.isNone then { st with start_time := some t } else st
  let elapsed := t - st.start_time.getD t
  let st := if st.learning ∧ cfg.baseline_seconds ≤ elapsed then st.finalize_learning else st
  let st := db_values.enum.foldl
    (fun s p => s.process_bin cfg t hz_low hz_bin_width p.1 p.2) st
  if hz_low < 10000000 then
    let st := { st with sweep_count := st.sweep_count + 1 }
    if st.learning = false ∧ st.sweep_count % cfg.emit_interval = 0 then
      st.emit_baseline_summary t
    else st
  else st

/-- A whole run of the sweep processor on timestamped parsed lines
`(now, hz_low, hz_bin_width, db_values)`. -/
noncomputable def runSweep (cfg : SweepConfig) (lines : List (ℚ × ℚ × ℚ × List ℚ)) :
    SweepProcessor :=
  lines.foldl (fun st l => st.process_line cfg l.1 l.2.1 l.2.2.1 l.2.2.2)
    SweepProcessor.init

/-! ## BLE observation records (ble_processor.py lines 396-414 and 557-589)

The record builders below take the upstream DSP quantities (rssi, noise, snr,
burst count, CFO, ...) as arguments; only the record construction — in
particular the signature — is in scope for the claims. -/

/-- The `ble-energy` observation of `process_energy`. -/
noncomputable def energyObs (t : ℚ) (channel : ℕ) (freq_hz : ℤ) (rssi noise snr : ℝ)
    (burst_count dwell_ms : ℕ) (noiseBaseline noiseStddev noiseDeviation : ℝ) : Obs :=
  { observedAt := t
    protocol := "ble-energy"
    frequencyHz := freq_hz
    rssi := round1 rssi
    noise := round1 noise
    snr := some (round1 snr)
    modulation := some "GFSK"
    signature := compute_signature ("ble-energy") ("channel=" ++ toString channel)
    fields := .energy ⟨channel, round1 rssi, burst_count, dwell_ms,
      noiseBaseline, noiseStddev, noiseDeviation⟩ }

/-- The `ble-adv` observation built in `_find_and_decode_packets` (the
signature is computed from the same `mac_hash` and `adv_type` that are stored
in the fields). -/
noncomputable def advObs (t : ℚ) (channel : ℕ) (freq_hz : ℤ) (rssi : ℝ)
    (mac_hash adv_type : String) (crc_valid : Bool) (tx_add : ℕ)
    (fingerprint_id : String) (cfo_hz : ℝ) : Obs :=
  { observedAt := t
    protocol := "ble-adv"
    frequencyHz := freq_hz
    rssi := round1 rssi
    noise := round1 (rssi - 20)
    snr := some 20
    modulation := some "GFSK"
    signature := compute_signature ("ble-adv")
      ("macHash=" ++ mac_hash ++ "&advType=" ++ adv_type)
    fields := .adv ⟨channel, mac_hash, adv_type, crc_valid,
      (if tx_add ≠ 0 then "random" else "public"), fingerprint_id, cfo_hz⟩ }

/-! ## Spec-side signature characterisation (for claim C10)

These two definitions follow the words of the spec (§6 Signature), to be
compared with the records the embedded code produces. -/

/-- The documented per-protocol key parts, read off a record's own fields. -/
def keyPartsSpec (f : ObsFields) : String :=
  match f with
  | .anomaly f => "band=" ++ f.band ++ "&type=" ++ f.anomalyType
  | .baseline f => "band=" ++ f.band
  | .energy f => "channel=" ++ toString f.channel
  | .adv f => "macHash=" ++ f.macHash ++ "&advType=" ++ f.advType

/-- The documented protocol name of each kind of record. -/
def protocolSpec (f : ObsFields) : String :=
  match f with
  | .anomaly _ => "spectrum-anomaly"
  | .baseline _ => "spectrum-baseline"
  | .energy _ => "ble-energy"
  | .adv _ => "ble-adv"

/-- The spec's signature construction:
`hex(SHA-256("rf-telemetry-v1:" + protocol + ":" + keyParts))`. -/
def signatureSpec (o : Obs) : Prop :=
  o.protocol = protocolSpec o.fields ∧
  o.signature = sha256hex ("rf-telemetry-v1:" ++ o.protocol ++ ":" ++ keyPartsSpec o.fields)

/-! ## Shapes of emitted sweep records and concrete runs used as test inputs -/

/-- A record as `_emit_anomaly` builds it at its (unique) call site: the power,
statistics and sigma of some bin reading whose sigma exceeded the threshold. -/
def AnomalyShape (cfg : SweepConfig) (o : Obs) : Prop :=
  ∃ (t : ℚ) (freq : ℤ) (power : ℚ) (stats : BinStats),
    (cfg.anomaly_sigma : ℝ) < stats.deviation_sigma power ∧
    o = anomalyObs t freq power stats.current_mean (stats.deviation_sigma power)

/-- A record as `_emit_baseline_summary` builds it. -/
def BaselineShape (o : Obs) : Prop :=
  ∃ (t : ℚ) (band : String) (powers : List ℚ), o = baselineObs t band powers

/-- The `deviationSigma` field of a `spectrum-anomaly` record. -/
def anomalySigmaOf (o : Obs) : Option ℝ :=
  match o.fields with
  | .anomaly f => some f.deviationSigma
  | _ => none

/-- The `anomalyType` field of a `spectrum-anomaly` record. -/
def anomalyTypeOf (o : Obs) : Option String :=
  match o.fields with
  | .anomaly f => some f.anomalyType
  | _ => none

/-- Test input: a single 1 MHz bin at 2400.5 MHz fed `0` on ten lines (two of
them before the 300 s learning deadline, so the bin holds 2 samples when
learning ends), then `1`, then `10`. -/
def lines1 : List (ℚ × ℚ × ℚ × List ℚ) :=
  [(0, 2400000000, 1000000, [0]), (1, 2400000000, 1000000, [0]),
   (300, 2400000000, 1000000, [0]), (301, 2400000000, 1000000, [0]),
   (302, 2400000000, 1000000, [0]), (303, 2400000000, 1000000, [0]),
   (304, 2400000000, 1000000, [0]), (305, 2400000000, 1000000, [0]),
   (306, 2400000000, 1000000, [0]), (307, 2400000000, 1000000, [0]),
   (308, 2400000000, 1000000, [1]), (309, 2400000000, 1000000, [10])]

/-- Configuration with `SWEEP_MIN_STREAK=1` (everything else at its default). -/
def config2 : SweepConfig := ⟨300, 3, 10, 1⟩

/-- Test input: the bin learns `0` on three lines (promoted with the variance
floored at 0.1), then reads `1.01` once. -/
def lines2 : List (ℚ × ℚ × ℚ × List ℚ) :=
  [(0, 2400000000, 1000000, [0]), (1, 2400000000, 1000000, [0]),
   (2, 2400000000, 1000000, [0]), (300, 2400000000, 1000000, [101/100])]

/-- Test input: the bin learns `0` on three lines, then oscillates
`10, -10, 10`. -/
def lines3 : List (ℚ × ℚ × ℚ × List ℚ) :=
  [(0, 2400000000, 1000000, [0]), (1, 2400000000, 1000000, [0]),
   (2, 2400000000, 1000000, [0]), (300, 2400000000, 1000000, [10]),
   (301, 2400000000, 1000000, [-10]), (302, 2400000000, 1000000, [10])]

/-- The deduplication guarantee on an emission trace: two emissions of the
same signature are at least `window` seconds apart. -/
def DedupGap {α : Type} (window : ℚ) (ems : List (α × ℚ)) : Prop :=
  List.Pairwise (fun p q => p.1 = q.1 → window ≤ q.2 - p.2) ems

/-- Inductive invariant tying the `last_seen` table to the emission history:
`T` is the time of the latest processed event.  An existing entry bounds every
past emission of its signature; a missing entry means every past emission of
that signature is at least `2 * window` old (it can only have been dropped by
`cleanup_dedup`). -/
def DedupInv {α : Type} [DecidableEq α] (window : ℚ) (ems : List (α × ℚ))
    (table : List (α × ℚ)) (T : ℚ) : Prop :=
  DedupGap window ems ∧
  (table.map Prod.fst).Nodup ∧
  (∀ p ∈ ems, p.2 ≤ T) ∧
  (∀ sig v, alistGet table sig = some v →
    v ≤ T ∧ ∀ p ∈ ems, p.1 = sig → p.2 ≤ v) ∧
  (∀ sig, alistGet table sig = none → ∀ p ∈ ems, p.1 = sig → p.2 ≤ T - 2 * window)

/-- Every observation in `st.emissions` is either inherited from `base` or has
one of the two shapes the sweep emitters produce. -/
def EmittedFrom (cfg : SweepConfig) (base : List Obs) (st : SweepProcessor) : Prop :=
  ∀ o ∈ st.emissions, o ∈ base ∨ AnomalyShape cfg o ∨ BaselineShape o

/-! # Theorems -/

/-! ## Association-list lemmas -/

theorem alistGet_set_self {κ β : Type} [DecidableEq κ] (l : List (κ × β)) (k : κ) (v : β) :
    alistGet (alistSet l k v) k = some v := by
  induction l with
  | nil => simp [alistGet, alistSet]
  | cons p rest ih =>
    by_cases h : p.1 = k
    · simp [alistSet, alistGet, h]
    · simpa [alistSet, alistGet, h] using ih

theorem alistGet_set_ne {κ β : Type} [DecidableEq κ] (l : List (κ × β)) (k k' : κ) (v : β)
    (h : k' ≠ k) : alistGet (alistSet l k v) k' = alistGet l k' := by
  have hkk : ¬ k = k' := fun hh => h hh.symm
  induction l with
  | nil => simp [alistGet, alistSet, hkk]
  | cons p rest ih =>
    by_cases hp : p.1 = k
    · simp [alistSet, alistGet, hp, hkk]
    · by_cases hp' : p.1 = k'
      · simp [alistSet, alistGet, hp, hp', h]
      · simp [alistSet, alistGet, hp, hp', ih]

theorem alistGet_del_self {κ β : Type} [DecidableEq κ] (l : List (κ × β)) (k : κ) :
    alistGet (alistDel l k) k = none := by
  induction l with
  | nil => simp [alistGet, alistDel]
  | cons p rest ih =>
    by_cases h : p.1 = k
    · simpa [alistDel, List.filter_cons, h] using ih
    · simpa [alistDel, List.filter_cons, h, alistGet] using ih

theorem alistGet_del_ne {κ β : Type} [DecidableEq κ] (l : List (κ × β)) (k k' : κ)
    (h : k' ≠ k) : alistGet (alistDel l k) k' = alistGet l k' := by
  induction l with
  | nil => simp [alistGet, alistDel]
  | cons p rest ih =>
    by_cases hp : p.1 = k
    · have hp' : ¬ p.1 = k' := fun hh => h (hh.symm.trans hp)
      have hkk : ¬ k = k' := fun hh => h hh.symm
      simpa [alistDel, List.filter_cons, alistGet, hp, hp', hkk] using ih
    · by_cases hp' : p.1 = k'
      · simp [alistDel, List.filter_cons, alistGet, hp, hp', h]
      · simpa [alistDel, List.filter_cons, alistGet, hp, hp'] using ih

theorem alistGet_map {κ β γ : Type} [DecidableEq κ] (l : List (κ × β)) (g : β → γ) (k : κ) :
    alistGet (l.map (fun p => (p.1, g p.2))) k = (alistGet l k).map g := by
  induction l with
  | nil => simp [alistGet]
  | cons p rest ih =>
    by_cases h : p.1 = k
    · simp [alistGet, h]
    · simpa [alistGet, h] using ih

theorem alistGet_mem {κ β : Type} [DecidableEq κ] :
    ∀ {l : List (κ × β)} {k : κ} {v : β}, alistGet l k = some v → (k, v) ∈ l := by
  intro l
  induction l with
  | nil => intro k v h; simp [alistGet] at h
  | cons p rest ih =>
    intro k v h
    obtain ⟨a, b⟩ := p
    by_cases hp : a = k
    · subst hp
      simp only [alistGet, if_pos] at h
      injection h with h
      subst h
      exact List.mem_cons_self _ _
    · simp only [alistGet, if_neg hp] at h
      exact List.mem_cons_of_mem _ (ih h)

theorem alistGet_none_iff {κ β : Type} [DecidableEq κ] (l : List (κ × β)) (k : κ) :
    alistGet l k = none ↔ k ∉ l.map Prod.fst := by
  induction l with
  | nil => simp [alistGet]
  | cons p rest ih =>
    by_cases hp : p.1 = k
    · simp [alistGet, hp]
    · have hp' : ¬ k = p.1 := fun hh => hp hh.symm
      simp [alistGet, hp, ih, hp']

/-! ## Claim C7: dewhitening is an involution -/

theorem dewhitenGo_involution (bits : List Bool) : ∀ lfsr : ℕ,
    dewhitenGo lfsr (dewhitenGo lfsr bits) = bits := by
  induction bits with
  | nil => intro lfsr; rfl
  | cons b rest ih =>
    intro lfsr
    simp [dewhitenGo, ih, Bool.xor_assoc]

/-- C7: BLE dewhitening is an involution: for every bit sequence and every
channel number, applying `ble_dewhiten` twice with the same channel returns
the input unchanged. -/
theorem C7_dewhiten_involution : ∀ (bits : List Bool) (channel : ℕ),
    ble_dewhiten (ble_dewhiten bits channel) channel = bits := by
  intro bits channel
  exact dewhitenGo_involution bits _

/-! ## Claim C9: the payload-length filter -/

/-- C9: a decode candidate is rejected exactly when the payload length parsed
from the low 6 bits of the second dewhitened header byte is below 6 or above
37; lengths 5 and 38 are rejected, 6 and 37 accepted. -/
theorem C9_payload_length_filter :
    payloadLengthRejected 5 = true ∧ payloadLengthRejected 6 = false ∧
    payloadLengthRejected 37 = false ∧ payloadLengthRejected 38 = true ∧
    ∀ b1 : ℕ, (payloadLengthRejected (payloadLengthOfHeader b1) = false ↔
      6 ≤ b1 % 64 ∧ b1 % 64 ≤ 37) := by
  refine ⟨rfl, rfl, rfl, rfl, fun b1 => ?_⟩
  have h : payloadLengthOfHeader b1 = b1 % 64 := by
    have h64 := Nat.and_pow_two_sub_one_eq_mod b1 6
    norm_num at h64
    exact h64
  rw [payloadLengthRejected, h]
  simp only [Bool.or_eq_false_iff, decide_eq_false_iff_not, not_lt, gt_iff_lt]

/-! ## Claim C8: the frontend driver adapter contract -/

/-- C8: `capture_channel` returns `none` on non-zero exit status, short read,
timeout, missing executable or OS error, and on success returns exactly
`samples_per_dwell` complex samples whose components are the interleaved
signed 8-bit values divided by 128.  (The function is total — the modelled
`except` clause makes every failure path return `None` instead of raising.) -/
theorem C8_capture_contract :
    (∀ (n : ℕ) (rc : ℤ) (out : List ℕ), rc ≠ 0 →
      capture_channel n (.completed rc out) = none) ∧
    (∀ (n : ℕ) (rc : ℤ) (out : List ℕ), out.length < n * 2 →
      capture_channel n (.completed rc out) = none) ∧
    (∀ n : ℕ, capture_channel n .timeout = none) ∧
    (∀ n : ℕ, capture_channel n .notFound = none) ∧
    (∀ n : ℕ, capture_channel n .osError = none) ∧
    (∀ (n : ℕ) (out : List ℕ), ¬ out.length < n * 2 →
      ∃ buf, capture_channel n (.completed 0 out) = some buf ∧
        buf.length = n ∧
        ∀ i < n, buf.getD i (0, 0) =
          ((toInt8 (out.getD (2 * i) 0) : ℚ) / 128,
           (toInt8 (out.getD (2 * i + 1) 0) : ℚ) / 128)) := by
  refine ⟨?_, ?_, fun _ => rfl, fun _ => rfl, fun _ => rfl, ?_⟩
  · intro n rc out h
    simp [capture_channel, h]
  · intro n rc out h
    by_cases hrc : rc = 0
    · simp [capture_channel, hrc, h]
    · simp [capture_channel, hrc]
  · intro n out h
    refine ⟨(List.range n).map (fun i =>
        ((toInt8 (out.getD (2 * i) 0) : ℚ) / 128,
         (toInt8 (out.getD (2 * i + 1) 0) : ℚ) / 128)), ?_, by simp, ?_⟩
    · simp [capture_channel, h]
    · intro i hi
      simp [List.getD_eq_getElem?_getD, List.getElem?_map, List.getElem?_range hi]

/-- Witness for C8 at concrete inputs: `n = 2`, bytes `[1, 255, 128, 7, 9]`
(note `255 ↦ -1` and `128 ↦ -128` as signed values). -/
theorem C8_capture_contract_witness :
    capture_channel 2 (.completed 3 [1, 255, 128, 7, 9]) = none ∧
    capture_channel 2 (.completed 0 [1, 255]) = none ∧
    capture_channel 2 .timeout = none ∧
    ∃ buf, capture_channel 2 (.completed 0 [1, 255, 128, 7, 9]) = some buf ∧
      buf.length = 2 ∧
      ∀ i < 2, buf.getD i (0, 0) =
        ((toInt8 ([1, 255, 128, 7, 9].getD (2 * i) 0) : ℚ) / 128,
         (toInt8 ([1, 255, 128, 7, 9].getD (2 * i + 1) 0) : ℚ) / 128) := by
  refine ⟨C8_capture_contract.1 2 3 _ (by decide), C8_capture_contract.2.1 2 0 _ (by decide),
    C8_capture_contract.2.2.1 2, C8_capture_contract.2.2.2.2.2 2 _ (by decide)⟩

/-! ## Claim C6: deduplication -/

theorem alistSet_keys_mem {κ β : Type} [DecidableEq κ] (l : List (κ × β)) (k x : κ) (v : β) :
    x ∈ (alistSet l k v).map Prod.fst ↔ x ∈ l.map Prod.fst ∨ x = k := by
  induction l with
  | nil => simp [alistSet]
  | cons p rest ih =>
    by_cases hp : p.1 = k
    · subst hp
      by_cases hx : x = p.1 <;> simp [alistSet, hx]
    · simp only [alistSet, if_neg hp, List.map_cons, List.mem_cons, ih]
      tauto

theorem alistSet_keys_nodup {κ β : Type} [DecidableEq κ] (l : List (κ × β)) (k : κ) (v : β)
    (h : (l.map Prod.fst).Nodup) : ((alistSet l k v).map Prod.fst).Nodup := by
  induction l with
  | nil => simp [alistSet]
  | cons p rest ih =>
    simp only [List.map_cons, List.nodup_cons] at h
    by_cases hp : p.1 = k
    · simp only [alistSet, if_pos hp, List.map_cons, List.nodup_cons]
      exact ⟨h.1, h.2⟩
    · simp only [alistSet, if_neg hp, List.map_cons, List.nodup_cons]
      refine ⟨?_, ih h.2⟩
      rw [alistSet_keys_mem]
      rintro (hmem | hk)
      · exact h.1 hmem
      · exact hp hk

theorem alistGet_of_mem_nodup {κ β : Type} [DecidableEq κ] :
    ∀ {l : List (κ × β)} {k : κ} {v : β},
      (k, v) ∈ l → (l.map Prod.fst).Nodup → alistGet l k = some v := by
  intro l
  induction l with
  | nil => intro k v h _; simp at h
  | cons p rest ih =>
    intro k v h hnd
    simp only [List.map_cons, List.nodup_cons] at hnd
    rcases List.mem_cons.mp h with h1 | h1
    · obtain ⟨a, b⟩ := p
      injection h1.symm with ha hb
      subst ha; subst hb
      simp [alistGet]
    · have hk : k ∈ rest.map Prod.fst := List.mem_map_of_mem Prod.fst h1
      have hp : ¬ p.1 = k := fun hh => hnd.1 (hh ▸ hk)
      simp only [alistGet, if_neg hp]
      exact ih h1 hnd.2

theorem filter_keys_nodup {κ β : Type} [DecidableEq κ] (l : List (κ × β))
    (pred : κ × β → Bool) (h : (l.map Prod.fst).Nodup) :
    ((l.filter pred).map Prod.fst).Nodup :=
  h.sublist ((l.filter_sublist).map Prod.fst)

theorem alistGet_filter_some {κ β : Type} [DecidableEq κ] {l : List (κ × β)}
    {pred : κ × β → Bool} {k : κ} {v : β} (hnd : (l.map Prod.fst).Nodup)
    (h : alistGet (l.filter pred) k = some v) :
    alistGet l k = some v ∧ pred (k, v) = true := by
  have hmem := alistGet_mem h
  rw [List.mem_filter] at hmem
  exact ⟨alistGet_of_mem_nodup hmem.1 hnd, hmem.2⟩

theorem alistGet_filter_dropped {κ β : Type} [DecidableEq κ] {l : List (κ × β)}
    {pred : κ × β → Bool} {k : κ} {v : β} (hnd : (l.map Prod.fst).Nodup)
    (hv : alistGet l k = some v) (h : alistGet (l.filter pred) k = none) :
    pred (k, v) = false := by
  by_contra hp
  have hp' : pred (k, v) = true := by
    cases hpred : pred (k, v)
    · exact absurd hpred hp
    · rfl
  have hmem : (k, v) ∈ l.filter pred := List.mem_filter.mpr ⟨alistGet_mem hv, hp'⟩
  have := alistGet_of_mem_nodup hmem (filter_keys_nodup l pred hnd)
  rw [this] at h
  exact Option.noConfusion h

/-- The inductive step of the dedup argument: processing any monotone event
trace from a state satisfying `DedupInv` keeps the whole emission history
`window`-separated per signature. -/
theorem dedupRun_gap {α : Type} [DecidableEq α] (window : ℚ) (hW : 0 ≤ window) :
    ∀ (events : List (DedupEvent α)) (table ems : List (α × ℚ)) (T : ℚ),
      DedupInv window ems table T →
      (∀ e ∈ events, T ≤ e.time) →
      (events.map DedupEvent.time).Pairwise (fun a b => a ≤ b) →
      DedupGap window (ems ++ (dedupRun window table events).2) := by
  intro events
  induction events with
  | nil =>
    intro table ems T hInv _ _
    simpa [dedupRun] using hInv.1
  | cons e rest ih =>
    intro table ems T hInv hT hmono
    obtain ⟨hgap, hnd, hemsT, hsome, hnone⟩ := hInv
    have hTe : T ≤ e.time := hT e (List.mem_cons_self _ _)
    have hmono' := (List.pairwise_cons.mp hmono)
    have hrestT : ∀ e' ∈ rest, e.time ≤ e'.time := by
      intro e' he'
      exact hmono'.1 _ (List.mem_map_of_mem _ he')
    have hrestP : (rest.map DedupEvent.time).Pairwise (fun a b => a ≤ b) := hmono'.2
    -- case analysis on the event
    cases e with
    | attempt sig t =>
      have hTt : T ≤ t := hTe
      cases hget : alistGet table sig with
      | some v =>
        by_cases hsup : t - v < window
        · -- suppressed: state unchanged
          have hInv' : DedupInv window ems table t := by
            refine ⟨hgap, hnd, fun p hp => le_trans (hemsT p hp) hTt, ?_, ?_⟩
            · intro sig' v' hv'
              exact ⟨le_trans (hsome sig' v' hv').1 hTt, (hsome sig' v' hv').2⟩
            · intro sig' hv' p hp hps
              calc p.2 ≤ T - 2 * window := hnone sig' hv' p hp hps
                _ ≤ t - 2 * window := by linarith
          have := ih table ems t hInv' hrestT hrestP
          simpa [dedupRun, dedupStep, hget, if_pos hsup] using this
        · -- entry at least `window` old: emit and update the entry
          have hvT : v ≤ T := (hsome sig v hget).1
          have hInv' : DedupInv window (ems ++ [(sig, t)]) (alistSet table sig t) t := by
            refine ⟨?_, alistSet_keys_nodup table sig t hnd, ?_, ?_, ?_⟩
            · rw [DedupGap, List.pairwise_append]
              refine ⟨hgap, List.pairwise_singleton _ _, ?_⟩
              intro p hp q hq hpq
              simp only [List.mem_singleton] at hq
              subst hq
              have hpv : p.2 ≤ v := (hsome sig v hget).2 p hp hpq
              simp only
              linarith [not_lt.mp hsup]
            · intro p hp
              rcases List.mem_append.mp hp with hp | hp
              · exact le_trans (hemsT p hp) hTt
              · simp only [List.mem_singleton] at hp
                subst hp
                exact le_rfl
            · intro sig' v' hv'
              by_cases hss : sig' = sig
              · subst hss
                rw [alistGet_set_self] at hv'
                injection hv' with hv'
                subst hv'
                refine ⟨le_rfl, ?_⟩
                intro p hp hps
                rcases List.mem_append.mp hp with hp | hp
                · exact le_trans ((hsome sig' v hget).2 p hp hps) (le_trans hvT hTt)
                · simp only [List.mem_singleton] at hp
                  subst hp
                  exact le_rfl
              · rw [alistGet_set_ne table sig sig' t hss] at hv'
                refine ⟨le_trans (hsome sig' v' hv').1 hTt, ?_⟩
                intro p hp hps
                rcases List.mem_append.mp hp with hp | hp
                · exact (hsome sig' v' hv').2 p hp hps
                · simp only [List.mem_singleton] at hp
                  subst hp
                  exact absurd hps.symm hss
            · intro sig' hv' p hp hps
              by_cases hss : sig' = sig
              · subst hss
                rw [alistGet_set_self] at hv'
                exact Option.noConfusion hv'
              · rw [alistGet_set_ne table sig sig' t hss] at hv'
                rcases List.mem_append.mp hp with hp | hp
                · calc p.2 ≤ T - 2 * window := hnone sig' hv' p hp hps
                    _ ≤ t - 2 * window := by linarith
                · simp only [List.mem_singleton] at hp
                  subst hp
                  exact absurd hps.symm hss
          have := ih (alistSet table sig t) (ems ++ [(sig, t)]) t hInv' hrestT hrestP
          simpa [dedupRun, dedupStep, hget, if_neg hsup, List.append_assoc] using this
      | none =>
        -- no entry: emit; every previous emission of `sig` is ≥ 2*window old
        have holdsig : ∀ p ∈ ems, p.1 = sig → p.2 ≤ T - 2 * window := hnone sig hget
        have hInv' : DedupInv window (ems ++ [(sig, t)]) (alistSet table sig t) t := by
          refine ⟨?_, alistSet_keys_nodup table sig t hnd, ?_, ?_, ?_⟩
          · rw [DedupGap, List.pairwise_append]
            refine ⟨hgap, List.pairwise_singleton _ _, ?_⟩
            intro p hp q hq hpq
            simp only [List.mem_singleton] at hq
            subst hq
            have := holdsig p hp hpq
            simp only
            linarith
          · intro p hp
            rcases List.mem_append.mp hp with hp | hp
            · exact le_trans (hemsT p hp) hTt
            · simp only [List.mem_singleton] at hp
              subst hp
              exact le_rfl
          · intro sig' v' hv'
            by_cases hss : sig' = sig
            · subst hss
              rw [alistGet_set_self] at hv'
              injection hv' with hv'
              subst hv'
              refine ⟨le_rfl, ?_⟩
              intro p hp hps
              rcases List.mem_append.mp hp with hp | hp
              · have := holdsig p hp hps
                linarith
              · simp only [List.mem_singleton] at hp
                subst hp
                exact le_rfl
            · rw [alistGet_set_ne table sig sig' t hss] at hv'
              refine ⟨le_trans (hsome sig' v' hv').1 hTt, ?_⟩
              intro p hp hps
              rcases List.mem_append.mp hp with hp | hp
              · exact (hsome sig' v' hv').2 p hp hps
              · simp only [List.mem_singleton] at hp
                subst hp
                exact absurd hps.symm hss
          · intro sig' hv' p hp hps
            by_cases hss : sig' = sig
            · subst hss
              rw [alistGet_set_self] at hv'
              exact Option.noConfusion hv'
            · rw [alistGet_set_ne table sig sig' t hss] at hv'
              rcases List.mem_append.mp hp with hp | hp
              · calc p.2 ≤ T - 2 * window := hnone sig' hv' p hp hps
                  _ ≤ t - 2 * window := by linarith
              · simp only [List.mem_singleton] at hp
                subst hp
                exact absurd hps.symm hss
        have := ih (alistSet table sig t) (ems ++ [(sig, t)]) t hInv' hrestT hrestP
        simpa [dedupRun, dedupStep, hget, List.append_assoc] using this
    | cleanup t =>
      have hTt : T ≤ t := hTe
      have hInv' : DedupInv window ems
          (table.filter (fun p => decide (t - 2 * window < p.2))) t := by
        refine ⟨hgap, filter_keys_nodup table _ hnd, fun p hp => le_trans (hemsT p hp) hTt,
          ?_, ?_⟩
        · intro sig' v' hv'
          obtain ⟨hold, _⟩ := alistGet_filter_some hnd hv'
          exact ⟨le_trans (hsome sig' v' hold).1 hTt, (hsome sig' v' hold).2⟩
        · intro sig' hv' p hp hps
          cases hold : alistGet table sig' with
          | none =>
            calc p.2 ≤ T - 2 * window := hnone sig' hold p hp hps
              _ ≤ t - 2 * window := by linarith
          | some v' =>
            have hdrop := alistGet_filter_dropped hnd hold hv'
            simp only [decide_eq_false_iff_not, not_lt] at hdrop
            calc p.2 ≤ v' := (hsome sig' v' hold).2 p hp hps
              _ ≤ t - 2 * window := hdrop
      have := ih _ ems t hInv' hrestT hrestP
      simpa [dedupRun, dedupStep] using this

/-- C6: no two `ble-adv` emissions with the same signature happen within
`dedup_window_seconds` of each other (for monotone event times): the
pre-emission check suppresses any candidate whose entry is younger than the
window, and `cleanup_dedup` only drops entries aged at least twice the
window, so it cannot enable an early duplicate. -/
theorem C6_dedup {α : Type} [DecidableEq α] (window : ℚ) (hW : 0 ≤ window)
    (events : List (DedupEvent α))
    (hmono : (events.map DedupEvent.time).Pairwise (fun a b => a ≤ b)) :
    DedupGap window (dedupRun window [] events).2 ∧
    (∀ (t : ℚ) (table : List (α × ℚ)) (p : α × ℚ), p ∈ table →
      p ∉ (dedupStep window table (.cleanup t)).1 → p.2 ≤ t - 2 * window) := by
  constructor
  · cases events with
    | nil => simp [dedupRun, DedupGap]
    | cons e rest =>
      have hInv : DedupInv window ([] : List (α × ℚ)) ([] : List (α × ℚ)) e.time := by
        refine ⟨List.Pairwise.nil, List.nodup_nil, ?_, ?_, ?_⟩
        · intro p hp; simp at hp
        · intro sig v hv; simp [alistGet] at hv
        · intro sig _ p hp; simp at hp
      have hT : ∀ e' ∈ e :: rest, e.time ≤ e'.time := by
        intro e' he'
        rcases List.mem_cons.mp he' with he' | he'
        · subst he'; exact le_rfl
        · exact (List.pairwise_cons.mp hmono).1 _ (List.mem_map_of_mem _ he')
      simpa using dedupRun_gap window hW (e :: rest) [] [] e.time hInv hT hmono
  · intro t table p hmem hnot
    simp only [dedupStep, List.mem_filter, not_and] at hnot
    have := hnot hmem
    simp only [decide_eq_true_eq, not_lt] at this
    exact this

/-- Witness for C6: window 10 s, one signature attempted at times 0, 5 and 30
with a compaction at 21 (which drops the then 21-seconds-old entry); the
attempt at 5 is suppressed, and the two emissions are 30 s apart. -/
theorem C6_dedup_witness :
    (0 : ℚ) ≤ 10 ∧
    (dedupRun (α := String) 10 []
      [.attempt ("aa") 0, .attempt ("aa") 5, .cleanup 21, .attempt ("aa") 30]).2
      = [(("aa"), 0), (("aa"), 30)] ∧
    DedupGap 10 (dedupRun (α := String) 10 []
      [.attempt ("aa") 0, .attempt ("aa") 5, .cleanup 21, .attempt ("aa") 30]).2 := by
  refine ⟨by norm_num, by norm_num [dedupRun, dedupStep, alistGet, alistSet, List.filter_cons], ?_⟩
  refine (C6_dedup (α := String) 10 (by norm_num) _ ?_).1
  simp [List.pairwise_cons, DedupEvent.time]
  norm_num

/-! ## Claim C5: emission exactly on the min_streak-th consecutive hit -/

/-- C5: starting from a bin with no streak and no emitted flag, a run of `k`
consecutive over-threshold readings (every sigma above the threshold) leaves
the streak counter at `k`, emits exactly once — on the `min_streak`-th
reading, none earlier —, and sets the per-bin emitted flag from that reading
on, so later readings of the same streak emit nothing further. -/
theorem C5_streak_hysteresis (cfg : SweepConfig) (hms : 1 ≤ cfg.min_streak)
    (t : ℚ) (f : ℤ) (p : ℚ) (stats : BinStats) (st : SweepProcessor)
    (hs : alistGet st.streaks f = none) (he : alistGet st.emitted f = none)
    (σs : List ℝ) (hσ : ∀ σ ∈ σs, (cfg.anomaly_sigma : ℝ) < σ) :
    ∀ k ≤ σs.length,
      (((σs.take k).foldl (fun s σ => s.check_anomaly cfg t f p σ stats) st).emissions.length
        = st.emissions.length + (if cfg.min_streak ≤ k then 1 else 0)) ∧
      (alistGet ((σs.take k).foldl (fun s σ => s.check_anomaly cfg t f p σ stats) st).streaks f
        = if k = 0 then none else some k) ∧
      (alistGet ((σs.take k).foldl (fun s σ => s.check_anomaly cfg t f p σ stats) st).emitted f
        = if cfg.min_streak ≤ k then some true else none) := by
  intro k
  induction k with
  | zero =>
    intro _
    have h0 : ¬ cfg.min_streak ≤ 0 := by omega
    simp [hs, he, h0]
  | succ k ih =>
    intro hk1
    have hk : k < σs.length := by omega
    obtain ⟨ihLen, ihStreak, ihEmit⟩ := ih (by omega)
    have htake : σs.take (k + 1) = σs.take k ++ [σs.get ⟨k, hk⟩] := by
      rw [List.take_succ]
      simp [List.getElem?_eq_getElem hk]
    have hσk : (cfg.anomaly_sigma : ℝ) < σs.get ⟨k, hk⟩ :=
      hσ _ (σs.get_mem _ _)
    rw [htake, List.foldl_append]
    set stk := (σs.take k).foldl (fun s σ => s.check_anomaly cfg t f p σ stats) st
      with hstk
    have hgetD : (alistGet stk.streaks f).getD 0 = k := by
      rw [ihStreak]
      by_cases h0 : k = 0 <;> simp [h0]
    simp only [List.foldl_cons, List.foldl_nil, SweepProcessor.check_anomaly,
      if_pos hσk, hgetD]
    by_cases hm : cfg.min_streak ≤ k
    · -- already emitted earlier in this streak: no further emission
      have hmem : (alistGet stk.emitted f).getD false = true := by
        rw [ihEmit, if_pos hm]; rfl
      have hcond : ¬ (cfg.min_streak ≤ k + 1 ∧
          (alistGet stk.emitted f).getD false = false) := by
        rw [hmem]; simp
      rw [if_neg hcond]
      have hm1 : cfg.min_streak ≤ k + 1 := by omega
      refine ⟨?_, ?_, ?_⟩
      · simpa [if_pos hm1, if_pos hm] using ihLen
      · simp [alistGet_set_self]
      · simpa [if_pos hm1, if_pos hm] using ihEmit
    · have hmem : (alistGet stk.emitted f).getD false = false := by
        rw [ihEmit, if_neg hm]; rfl
      by_cases hm1 : cfg.min_streak ≤ k + 1
      · -- this is the min_streak-th hit: emit once and set the flag
        have hcond : cfg.min_streak ≤ k + 1 ∧
            (alistGet stk.emitted f).getD false = false := ⟨hm1, hmem⟩
        rw [if_pos hcond]
        refine ⟨?_, ?_, ?_⟩
        · simp only [List.length_append, List.length_singleton]
          rw [ihLen, if_neg hm, if_pos hm1]
        · simp [alistGet_set_self]
        · simp [alistGet_set_self, if_pos hm1]
      · -- still below min_streak: count up, emit nothing
        have hcond : ¬ (cfg.min_streak ≤ k + 1 ∧
            (alistGet stk.emitted f).getD false = false) := by
          intro hc; exact hm1 hc.1
        rw [if_neg hcond]
        refine ⟨?_, ?_, ?_⟩
        · simpa [if_neg hm1, if_neg hm] using ihLen
        · simp [alistGet_set_self]
        · simpa [if_neg hm1, if_neg hm] using ihEmit

/-- Witness for C5 at a concrete input: default configuration
(`min_streak = 2`), three consecutive readings of sigma 4 (> 3). -/
theorem C5_streak_hysteresis_witness :
    1 ≤ defaultConfig.min_streak ∧
    (∀ σ ∈ [(4 : ℝ), 4, 4], (defaultConfig.anomaly_sigma : ℝ) < σ) ∧
    ∀ k ≤ ([(4 : ℝ), 4, 4]).length,
      ((([(4 : ℝ), 4, 4].take k).foldl
          (fun s σ => s.check_anomaly defaultConfig 0 0 0 σ BinStats.init)
          SweepProcessor.init).emissions.length
        = SweepProcessor.init.emissions.length +
            (if defaultConfig.min_streak ≤ k then 1 else 0)) ∧
      (alistGet (([(4 : ℝ), 4, 4].take k).foldl
          (fun s σ => s.check_anomaly defaultConfig 0 0 0 σ BinStats.init)
          SweepProcessor.init).streaks 0
        = if k = 0 then none else some k) ∧
      (alistGet (([(4 : ℝ), 4, 4].take k).foldl
          (fun s σ => s.check_anomaly defaultConfig 0 0 0 σ BinStats.init)
          SweepProcessor.init).emitted 0
        = if defaultConfig.min_streak ≤ k then some true else none) := by
  have hσ : ∀ σ ∈ [(4 : ℝ), 4, 4], (defaultConfig.anomaly_sigma : ℝ) < σ := by
    intro σ hσ
    simp only [List.mem_cons, List.not_mem_nil, or_false] at hσ
    rcases hσ with h | h | h <;> rw [h] <;> norm_num [defaultConfig]
  exact ⟨by norm_num [defaultConfig], hσ,
    C5_streak_hysteresis defaultConfig (by norm_num [defaultConfig]) 0 0 0
      BinStats.init SweepProcessor.init rfl rfl [(4 : ℝ), 4, 4] hσ⟩

/-! ## Square-root and rounding helper lemmas -/

theorem round1_gt (x : ℝ) : x - 1 / 20 < round1 x := by
  rw [round1]
  have h := Int.sub_one_lt_floor (x * 10 + 1 / 2)
  have h2 : x * 10 - 1 / 2 < (⌊x * 10 + 1 / 2⌋ : ℝ) := by linarith
  linarith

theorem round1_eq_of (x : ℝ) (k : ℤ) (h1 : (k : ℝ) ≤ x * 10 + 1 / 2)
    (h2 : x * 10 + 1 / 2 < k + 1) : round1 x = (k : ℝ) / 10 := by
  rw [round1, Int.floor_eq_iff.mpr ⟨h1, h2⟩]

theorem lt_div_sqrt_iff (a v c : ℝ) (hv : 0 < v) (hc : 0 ≤ c) :
    (c < a / Real.sqrt v) ↔ (0 < a ∧ c ^ 2 * v < a ^ 2) := by
  have hs : 0 < Real.sqrt v := Real.sqrt_pos.mpr hv
  have hsq : Real.sqrt v ^ 2 = v := Real.sq_sqrt hv.le
  rw [lt_div_iff hs]
  constructor
  · intro h
    have ha : 0 < a := lt_of_le_of_lt (by positivity) h
    refine ⟨ha, ?_⟩
    have h2 : (c * Real.sqrt v) ^ 2 < a ^ 2 :=
      pow_lt_pow_left h (by positivity) (by norm_num)
    calc c ^ 2 * v = (c * Real.sqrt v) ^ 2 := by rw [mul_pow, hsq]
      _ < a ^ 2 := h2
  · rintro ⟨ha, h2⟩
    by_contra hcon
    push_neg at hcon
    have : a ^ 2 ≤ (c * Real.sqrt v) ^ 2 := pow_le_pow_left ha.le hcon 2
    rw [mul_pow, hsq] at this
    linarith

theorem div_sqrt_lt_neg_iff (a v c : ℝ) (hv : 0 < v) (hc : 0 ≤ c) :
    (a / Real.sqrt v < -c) ↔ (a < 0 ∧ c ^ 2 * v < a ^ 2) := by
  have h := lt_div_sqrt_iff (-a) v c hv hc
  rw [neg_div] at h
  rw [show (a / Real.sqrt v < -c) ↔ (c < -(a / Real.sqrt v)) from lt_neg.symm] at *
  rw [h]
  constructor
  · rintro ⟨h1, h2⟩
    exact ⟨by linarith, by nlinarith⟩
  · rintro ⟨h1, h2⟩
    exact ⟨by linarith, by nlinarith⟩

theorem BinStats.stddev_nonneg (s : BinStats) : 0 ≤ s.stddev := by
  rw [BinStats.stddev]
  split_ifs <;> first | exact Real.sqrt_nonneg _ | exact le_rfl

theorem stddev_learning_eq (s : BinStats) (hl : s.learning = true) (hv : 0 < s.variance) :
    s.stddev = Real.sqrt ((s.variance : ℚ) : ℝ) := by
  simp [BinStats.stddev, hl, hv]

theorem stddev_tracking_eq (s : BinStats) (hl : s.learning = false) (hv : 0 < s.ema_var) :
    s.stddev = Real.sqrt ((s.ema_var : ℚ) : ℝ) := by
  simp [BinStats.stddev, hl, hv]

theorem stddev_learning_zero (s : BinStats) (hl : s.learning = true) (hv : s.variance = 0) :
    s.stddev = 0 := by
  simp [BinStats.stddev, hl, hv]

theorem deviation_sigma_of_stddev_zero (s : BinStats) (v : ℚ) (h : s.stddev = 0) :
    s.deviation_sigma v = 0 := by
  rw [BinStats.deviation_sigma, if_pos]
  rw [h]
  norm_num

theorem deviation_sigma_eq (s : BinStats) (value : ℚ) (q : ℚ) (hq : 1 / 10000 ≤ q)
    (hsd : s.stddev = Real.sqrt ((q : ℚ) : ℝ)) :
    s.deviation_sigma value =
      ((value - s.current_mean : ℚ) : ℝ) / Real.sqrt ((q : ℚ) : ℝ) := by
  have hq0 : (0 : ℝ) < (q : ℝ) := by
    have : (0 : ℚ) < q := lt_of_lt_of_le (by norm_num) hq
    exact_mod_cast this
  have hle : (1 / 100 : ℝ) ≤ Real.sqrt (q : ℝ) := by
    have h1 : ((1 / 10000 : ℚ) : ℝ) ≤ (q : ℝ) := Rat.cast_le.mpr hq
    push_cast at h1
    rw [show (1 / 100 : ℝ) = Real.sqrt ((1 / 100) ^ 2) by
      rw [Real.sqrt_sq (by norm_num)]]
    apply Real.sqrt_le_sqrt
    rw [show ((1 / 100 : ℝ)) ^ 2 = 1 / 10000 by norm_num]
    exact h1
  rw [BinStats.deviation_sigma, if_neg (by rw [hsd]; linarith), hsd]
  push_cast
  ring

theorem deviation_sigma_pos_mean_lt (s : BinStats) (value : ℚ) (c : ℚ) (hc : 0 ≤ c)
    (h : (c : ℝ) < s.deviation_sigma value) : s.current_mean < value := by
  rw [BinStats.deviation_sigma] at h
  split_ifs at h with hsd
  · have hc0 : (0 : ℝ) ≤ (c : ℝ) := by exact_mod_cast hc
    linarith
  · push_neg at hsd
    have hsd0 : 0 < s.stddev := lt_of_lt_of_le (by norm_num) hsd
    have hc0 : (0 : ℝ) ≤ (c : ℝ) := by exact_mod_cast hc
    have hmul := (lt_div_iff hsd0).mp h
    have hnum : (0 : ℝ) < (value : ℝ) - (s.current_mean : ℝ) := by
      nlinarith [mul_nonneg hc0 hsd0.le]
    rw [sub_pos] at hnum
    exact_mod_cast hnum

/-! ## Shape of every record the sweep processor emits -/

theorem EmittedFrom_self (cfg : SweepConfig) (st : SweepProcessor) :
    EmittedFrom cfg st.emissions st :=
  fun _ ho => Or.inl ho

theorem EmittedFrom_process_bin {cfg : SweepConfig} {base : List Obs}
    {st : SweepProcessor} (h : EmittedFrom cfg base st) (t hz_low w : ℚ) (i : ℕ)
    (db : ℚ) : EmittedFrom cfg base (st.process_bin cfg t hz_low w i db) := by
  intro o ho
  simp only [SweepProcessor.process_bin, SweepProcessor.check_anomaly] at ho
  split at ho
  · exact h o ho
  · split at ho
    next hσ =>
      split at ho
      · simp only [List.mem_append, List.mem_singleton] at ho
        rcases ho with ho | ho
        · exact h o ho
        · subst ho
          exact Or.inr (Or.inl ⟨t, _, db, _, hσ, rfl⟩)
      · exact h o ho
    next => exact h o ho

theorem EmittedFrom_foldl_bins {cfg : SweepConfig} {base : List Obs}
    (t hz_low w : ℚ) (l : List (ℕ × ℚ)) :
    ∀ {st : SweepProcessor}, EmittedFrom cfg base st →
      EmittedFrom cfg base
        (l.foldl (fun s p => s.process_bin cfg t hz_low w p.1 p.2) st) := by
  induction l with
  | nil => intro st h; exact h
  | cons p rest ih =>
    intro st h
    exact ih (EmittedFrom_process_bin h t hz_low w p.1 p.2)

theorem EmittedFrom_baseline {cfg : SweepConfig} {base : List Obs}
    {st : SweepProcessor} (h : EmittedFrom cfg base st) (t : ℚ) :
    EmittedFrom cfg base (st.emit_baseline_summary t) := by
  intro o ho
  simp only [SweepProcessor.emit_baseline_summary, List.mem_append] at ho
  rcases ho with ho | ho
  · exact h o ho
  · rw [List.mem_map] at ho
    obtain ⟨b, _, hb⟩ := ho
    exact Or.inr (Or.inr ⟨t, b.1, b.2, hb.symm⟩)

theorem emissions_mk (b : List (ℤ × BinStats)) (str : List (ℤ × ℕ))
    (em : List (ℤ × Bool)) (stt : Option ℚ) (l : Bool) (n a : ℕ) (e : List Obs) :
    (SweepProcessor.mk b str em stt l n a e).emissions = e := rfl

theorem EmittedFrom_process_line {cfg : SweepConfig} {base : List Obs}
    {st : SweepProcessor} (h : EmittedFrom cfg base st) (t hz_low w : ℚ)
    (dbs : List ℚ) : EmittedFrom cfg base (st.process_line cfg t hz_low w dbs) := by
  intro o ho
  simp only [SweepProcessor.process_line] at ho
  split_ifs at ho <;>
    try simp only [emissions_mk] at ho
  all_goals
    first
      | exact EmittedFrom_baseline
          (by intro o₁ ho₁
              try simp only [emissions_mk] at ho₁
              exact EmittedFrom_foldl_bins t hz_low w _
                (by exact fun o₂ ho₂ => h _ ho₂) o₁ ho₁) t o ho
      | exact EmittedFrom_foldl_bins t hz_low w _
          (by exact fun o₂ ho₂ => h _ ho₂) o ho

theorem EmittedFrom_runSweep (cfg : SweepConfig) (lines : List (ℚ × ℚ × ℚ × List ℚ)) :
    EmittedFrom cfg [] (runSweep cfg lines) := by
  rw [runSweep]
  have : ∀ (ls : List (ℚ × ℚ × ℚ × List ℚ)) (st : SweepProcessor),
      EmittedFrom cfg [] st →
      EmittedFrom cfg []
        (ls.foldl (fun s l => s.process_line cfg l.1 l.2.1 l.2.2.1 l.2.2.2) st) := by
    intro ls
    induction ls with
    | nil => intro st h; exact h
    | cons l rest ih =>
      intro st h
      exact ih _ (EmittedFrom_process_line h l.1 l.2.1 l.2.2.1 l.2.2.2)
  refine this lines SweepProcessor.init ?_
  intro o ho
  simp [SweepProcessor.init] at ho

/-! ## Claim C10: signatures of all emitted records -/

theorem signatureSpec_anomalyObs (t : ℚ) (f : ℤ) (p b : ℚ) (σ : ℝ) :
    signatureSpec (anomalyObs t f p b σ) :=
  ⟨rfl, rfl⟩

theorem signatureSpec_baselineObs (t : ℚ) (band : String) (powers : List ℚ) :
    signatureSpec (baselineObs t band powers) :=
  ⟨rfl, rfl⟩

/-- C10: every record emitted by the sweep processor on any input, and every
`ble-energy` / `ble-adv` record the BLE processor builds, carries the
documented signature: SHA-256 of `rf-telemetry-v1:<protocol>:<keyParts>` with
the key parts read off the record's own fields (`band=<b>&type=<t>`,
`band=<b>`, `channel=<n>`, `macHash=<h>&advType=<a>`). -/
theorem C10_signature_construction :
    (∀ (cfg : SweepConfig) (lines : List (ℚ × ℚ × ℚ × List ℚ)),
      ∀ o ∈ (runSweep cfg lines).emissions, signatureSpec o) ∧
    (∀ (t : ℚ) (channel : ℕ) (freq_hz : ℤ) (rssi noise snr : ℝ)
      (burst_count dwell_ms : ℕ) (nb ns nd : ℝ),
      signatureSpec (energyObs t channel freq_hz rssi noise snr burst_count
        dwell_ms nb ns nd)) ∧
    (∀ (t : ℚ) (channel : ℕ) (freq_hz : ℤ) (rssi : ℝ) (mac_hash adv_type : String)
      (crc_valid : Bool) (tx_add : ℕ) (fp : String) (cfo : ℝ),
      signatureSpec (advObs t channel freq_hz rssi mac_hash adv_type crc_valid
        tx_add fp cfo)) := by
  refine ⟨?_, fun _ _ _ _ _ _ _ _ _ _ _ => ⟨rfl, rfl⟩,
    fun _ _ _ _ _ _ _ _ _ _ => ⟨rfl, rfl⟩⟩
  intro cfg lines o ho
  rcases EmittedFrom_runSweep cfg lines o ho with h | h | h
  · exact absurd h (List.not_mem_nil o)
  · obtain ⟨t, f, p, stats, _, rfl⟩ := h
    exact signatureSpec_anomalyObs _ _ _ _ _
  · obtain ⟨t, band, powers, rfl⟩ := h
    exact signatureSpec_baselineObs _ _ _

/-! ## Claim C4: only power-spike anomalies are reachable -/

/-- C4: when the configured sigma threshold is nonnegative, every emitted
`spectrum-anomaly` record has `anomalyType = "power-spike"`: emission needs
the signed sigma above the threshold, which forces the measured power
strictly above the baseline mean, so the `"power-drop"` branch of
`_emit_anomaly` is unreachable. -/
theorem C4_power_spike (cfg : SweepConfig) (lines : List (ℚ × ℚ × ℚ × List ℚ))
    (hτ : 0 ≤ cfg.anomaly_sigma) :
    ∀ o ∈ (runSweep cfg lines).emissions, ∀ fl : AnomalyFields,
      o.fields = ObsFields.anomaly fl → fl.anomalyType = "power-spike" := by
  intro o ho fl hfl
  rcases EmittedFrom_runSweep cfg lines o ho with h | h | h
  · exact absurd h (List.not_mem_nil o)
  · obtain ⟨t, f, p, stats, hσ, rfl⟩ := h
    have hlt : stats.current_mean < p :=
      deviation_sigma_pos_mean_lt stats p cfg.anomaly_sigma hτ hσ
    simp only [anomalyObs, ObsFields.anomaly.injEq] at hfl
    subst hfl
    show (if stats.current_mean < p then "power-spike" else "power-drop") = "power-spike"
    rw [if_pos hlt]
  · obtain ⟨t, band, powers, rfl⟩ := h
    simp [baselineObs] at hfl

/-! ## Claim C2 (amended): the emitted deviationSigma against the threshold -/

/-- C2 (amended): for every emitted `spectrum-anomaly` record, the computed
sigma strictly exceeds the threshold, and therefore the emitted
`deviationSigma` — that sigma rounded to one decimal — strictly exceeds
the threshold minus 1/20 (it can equal the threshold, but fall no further
below it than the rounding step allows). -/
theorem C2_sigma_margin (cfg : SweepConfig) (lines : List (ℚ × ℚ × ℚ × List ℚ)) :
    ∀ o ∈ (runSweep cfg lines).emissions, ∀ fl : AnomalyFields,
      o.fields = ObsFields.anomaly fl →
      (cfg.anomaly_sigma : ℝ) - 1 / 20 < fl.deviationSigma := by
  intro o ho fl hfl
  rcases EmittedFrom_runSweep cfg lines o ho with h | h | h
  · exact absurd h (List.not_mem_nil o)
  · obtain ⟨t, f, p, stats, hσ, rfl⟩ := h
    simp only [anomalyObs, ObsFields.anomaly.injEq] at hfl
    subst hfl
    have h1 := round1_gt (stats.deviation_sigma p)
    show (cfg.anomaly_sigma : ℝ) - 1 / 20 < round1 (stats.deviation_sigma p)
    linarith
  · obtain ⟨t, band, powers, rfl⟩ := h
    simp [baselineObs] at hfl

/-! ## Claim C1 (amended): bins with fewer than 3 samples are not promoted -/

theorem finalize_learning_bins_get (st : SweepProcessor) (f : ℤ) :
    alistGet st.finalize_learning.bins f =
      (alistGet st.bins f).map
        (fun s => if 3 ≤ s.count then s.finalize_learning else s) := by
  simp only [SweepProcessor.finalize_learning]
  exact alistGet_map st.bins (fun s => if 3 ≤ s.count then s.finalize_learning else s) f

/-- C1 (amended): when the learning phase ends, a bin with fewer than 3
samples is left untouched by `_finalize_learning` — in particular its
`learning` flag stays `true` — while the processor-wide learning flag goes
`false` (so the per-line processing keeps updating such bins and runs the
anomaly check on them; as the counterexample run shows, such a bin can still
emit a spectrum-anomaly later). -/
theorem C1_unpromoted_keep_learning (st : SweepProcessor) (f : ℤ) (s : BinStats)
    (hget : alistGet st.bins f = some s) (hcount : s.count < 3) :
    alistGet st.finalize_learning.bins f = some s ∧
    st.finalize_learning.learning = false := by
  refine ⟨?_, rfl⟩
  rw [finalize_learning_bins_get, hget, Option.map_some']
  rw [if_neg (by omega)]

/-- Witness for C1's amended statement at a concrete state: one bin with
2 learning samples. -/
theorem C1_unpromoted_keep_learning_witness :
    alistGet (SweepProcessor.finalize_learning
      ⟨[(5, ⟨2, 7, 0, 0, 0, true⟩)], [], [], some 0, true, 0, 0, []⟩).bins 5
      = some ⟨2, 7, 0, 0, 0, true⟩ ∧
    (SweepProcessor.finalize_learning
      ⟨[(5, ⟨2, 7, 0, 0, 0, true⟩)], [], [], some 0, true, 0, 0, []⟩).learning = false :=
  C1_unpromoted_keep_learning _ 5 ⟨2, 7, 0, 0, 0, true⟩ rfl (by norm_num)

/-! ## Claim C3 (amended): the streak resets on every sub-threshold sigma -/

/-- C3 (amended): `_check_anomaly` drops the streak and the emitted flag
whenever the signed sigma fails the `> threshold` test — which includes every
large *negative* deviation, since sigma is signed.  A bin oscillating between
large positive and large negative deviations therefore has its streak reset
on each negative reading rather than accumulating it
(see the counterexample run). -/
theorem C3_reset_below_threshold (st : SweepProcessor) (cfg : SweepConfig) (t : ℚ)
    (f : ℤ) (p : ℚ) (σ : ℝ) (stats : BinStats)
    (h : ¬ (cfg.anomaly_sigma : ℝ) < σ) :
    alistGet (st.check_anomaly cfg t f p σ stats).streaks f = none ∧
    alistGet (st.check_anomaly cfg t f p σ stats).emitted f = none := by
  simp only [SweepProcessor.check_anomaly, if_neg h]
  exact ⟨alistGet_del_self _ _, alistGet_del_self _ _⟩

/-- Witness for C3's amended statement: a reading with sigma `-5` (a large
negative deviation, well outside the ±3 band) resets an existing streak. -/
theorem C3_reset_below_threshold_witness :
    (¬ (defaultConfig.anomaly_sigma : ℝ) < (-5 : ℝ)) ∧
    alistGet ((SweepProcessor.check_anomaly
      ⟨[], [(7, 4)], [(7, true)], none, false, 0, 0, []⟩
      defaultConfig 0 7 0 (-5) BinStats.init).streaks) 7 = none ∧
    alistGet ((SweepProcessor.check_anomaly
      ⟨[], [(7, 4)], [(7, true)], none, false, 0, 0, []⟩
      defaultConfig 0 7 0 (-5) BinStats.init).emitted) 7 = none := by
  have h : ¬ (defaultConfig.anomaly_sigma : ℝ) < (-5 : ℝ) := by
    norm_num [defaultConfig]
  exact ⟨h, (C3_reset_below_threshold _ defaultConfig 0 7 0 (-5) BinStats.init h).1,
    (C3_reset_below_threshold _ defaultConfig 0 7 0 (-5) BinStats.init h).2⟩

/-! ## Step-evaluation lemmas for concrete runs -/

theorem pyInt_intCast (n : ℤ) : pyInt ((n : ℤ) : ℚ) = n := by
  rw [pyInt]
  split_ifs with h
  · exact_mod_cast Int.floor_intCast n
  · rw [show (-((n : ℤ) : ℚ)) = ((-n : ℤ) : ℚ) by push_cast; ring, Int.floor_intCast]
    omega

theorem div_sqrt_lt_iff (a v c : ℝ) (hv : 0 < v) (ha : 0 ≤ a) (hc : 0 < c) :
    a / Real.sqrt v < c ↔ a ^ 2 < c ^ 2 * v := by
  have hs : 0 < Real.sqrt v := Real.sqrt_pos.mpr hv
  have hsq : Real.sqrt v ^ 2 = v := Real.sq_sqrt hv.le
  rw [div_lt_iff hs]
  constructor
  · intro h
    nlinarith [mul_pos hc hs]
  · intro h
    nlinarith [mul_pos hc hs, Real.sqrt_nonneg v]

theorem process_line_one_first (st : SweepProcessor) (cfg : SweepConfig)
    (t lo w v : ℚ) (hlo : ¬ lo < 10000000) (h0 : st.start_time = none)
    (hb : ¬ (st.learning = true ∧ cfg.baseline_seconds ≤ 0)) :
    st.process_line cfg t lo w [v]
      = SweepProcessor.process_bin { st with start_time := some t } cfg t lo w 0 v := by
  simp only [SweepProcessor.process_line, h0, Option.isNone_none, if_true, Option.getD_some,
    sub_self, List.enum, List.enumFrom, List.foldl_cons, List.foldl_nil]
  rw [if_neg hb, if_neg hlo]

theorem process_line_one_skip (st : SweepProcessor) (cfg : SweepConfig)
    (t lo w v t0 : ℚ) (hlo : ¬ lo < 10000000) (h0 : st.start_time = some t0)
    (hb : ¬ (st.learning = true ∧ cfg.baseline_seconds ≤ t - t0)) :
    st.process_line cfg t lo w [v] = st.process_bin cfg t lo w 0 v := by
  simp only [SweepProcessor.process_line, h0, Option.isNone_some, Bool.false_eq_true,
    if_false, Option.getD_some, List.enum, List.enumFrom, List.foldl_cons, List.foldl_nil]
  rw [if_neg hb, if_neg hlo]

theorem process_line_one_fin (st : SweepProcessor) (cfg : SweepConfig)
    (t lo w v t0 : ℚ) (hlo : ¬ lo < 10000000) (h0 : st.start_time = some t0)
    (hb : st.learning = true ∧ cfg.baseline_seconds ≤ t - t0) :
    st.process_line cfg t lo w [v]
      = st.finalize_learning.process_bin cfg t lo w 0 v := by
  simp only [SweepProcessor.process_line, h0, Option.isNone_some, Bool.false_eq_true,
    if_false, Option.getD_some, List.enum, List.enumFrom, List.foldl_cons, List.foldl_nil]
  rw [if_pos hb, if_neg hlo]

theorem process_bin_learning (st : SweepProcessor) (cfg : SweepConfig)
    (t lo w v : ℚ) (c : ℤ) (hc : pyInt (lo + w * ((0 : ℕ) : ℚ) + w / 2) = c)
    (hl : st.learning = true) :
    st.process_bin cfg t lo w 0 v
      = { st with bins :=
            alistSet st.bins c (((alistGet st.bins c).getD BinStats.init).update v) } := by
  simp only [SweepProcessor.process_bin, hc]
  split
  · rfl
  next hfalse => exact absurd hl hfalse

theorem process_bin_tracking (st : SweepProcessor) (cfg : SweepConfig)
    (t lo w v : ℚ) (c : ℤ) (stats : BinStats)
    (hc : pyInt (lo + w * ((0 : ℕ) : ℚ) + w / 2) = c)
    (hl : st.learning = false)
    (hst : ((alistGet st.bins c).getD BinStats.init).update v = stats) :
    st.process_bin cfg t lo w 0 v
      = SweepProcessor.check_anomaly { st with bins := alistSet st.bins c stats }
          cfg t c v (stats.deviation_sigma v) stats := by
  simp only [SweepProcessor.process_bin, hc, hst]
  split
  next htrue =>
    rw [show ({ st with bins := alistSet st.bins c stats } : SweepProcessor).learning
        = st.learning from rfl, hl] at htrue
    exact absurd htrue (by simp)
  next => rfl

theorem check_anomaly_miss (st : SweepProcessor) (cfg : SweepConfig) (t : ℚ)
    (f : ℤ) (p : ℚ) (σ : ℝ) (stats : BinStats)
    (h : ¬ (cfg.anomaly_sigma : ℝ) < σ) :
    st.check_anomaly cfg t f p σ stats
      = { st with streaks := alistDel st.streaks f,
                  emitted := alistDel st.emitted f } := by
  simp only [SweepProcessor.check_anomaly, if_neg h]

theorem check_anomaly_hit_emit (st : SweepProcessor) (cfg : SweepConfig) (t : ℚ)
    (f : ℤ) (p : ℚ) (σ : ℝ) (stats : BinStats) (k : ℕ)
    (h : (cfg.anomaly_sigma : ℝ) < σ)
    (hk : (alistGet st.streaks f).getD 0 + 1 = k)
    (hcond : cfg.min_streak ≤ k ∧ (alistGet st.emitted f).getD false = false) :
    st.check_anomaly cfg t f p σ stats
      = { st with streaks := alistSet st.streaks f k,
                  emitted := alistSet st.emitted f true,
                  anomaly_count := st.anomaly_count + 1,
                  emissions := st.emissions ++
                    [anomalyObs t f p stats.current_mean σ] } := by
  simp only [SweepProcessor.check_anomaly, if_pos h, hk]
  split
  next => rfl
  next hfalse => exact absurd hcond hfalse

theorem check_anomaly_hit_noemit (st : SweepProcessor) (cfg : SweepConfig) (t : ℚ)
    (f : ℤ) (p : ℚ) (σ : ℝ) (stats : BinStats) (k : ℕ)
    (h : (cfg.anomaly_sigma : ℝ) < σ)
    (hk : (alistGet st.streaks f).getD 0 + 1 = k)
    (hcond : ¬ (cfg.min_streak ≤ k ∧ (alistGet st.emitted f).getD false = false)) :
    st.check_anomaly cfg t f p σ stats
      = { st with streaks := alistSet st.streaks f k } := by
  simp only [SweepProcessor.check_anomaly, if_pos h, hk]
  split
  next htrue => exact absurd htrue hcond
  next => rfl

/-! ## Concrete run 2 (`config2`, `lines2`): one anomaly with sigma ≈ 3.03 -/

theorem run2_state :
    runSweep config2 lines2 =
      ⟨[(2400500000, ⟨3, 0, 0, 101/10000, 10909899/100000000, false⟩)],
       [(2400500000, 1)], [(2400500000, true)], some 0, false, 0, 1,
       [anomalyObs 300 2400500000 (101/100) (101/10000)
         (BinStats.deviation_sigma
           ⟨3, 0, 0, 101/10000, 10909899/100000000, false⟩ (101/100))]⟩ := by
  have hlo : ¬ (2400000000 : ℚ) < 10000000 := by norm_num
  have hc : pyInt ((2400000000 : ℚ) + 1000000 * ((0 : ℕ) : ℚ) + 1000000 / 2)
      = 2400500000 := by
    rw [show ((2400000000 : ℚ) + 1000000 * ((0 : ℕ) : ℚ) + 1000000 / 2)
        = ((2400500000 : ℤ) : ℚ) by norm_num]
    exact pyInt_intCast 2400500000
  have h1 : SweepProcessor.init.process_line config2 0 2400000000 1000000 [0]
      = ⟨[(2400500000, ⟨1, 0, 0, 0, 0, true⟩)], [], [], some 0, true, 0, 0, []⟩ := by
    rw [process_line_one_first _ _ _ _ _ _ hlo rfl (by norm_num [config2, SweepProcessor.init]),
        process_bin_learning _ _ _ _ _ _ _ hc rfl]
    norm_num [SweepProcessor.init, alistGet, alistSet, BinStats.update, BinStats.init]
  have h2 : (⟨[(2400500000, ⟨1, 0, 0, 0, 0, true⟩)], [], [], some 0, true, 0, 0, []⟩ :
        SweepProcessor).process_line config2 1 2400000000 1000000 [0]
      = ⟨[(2400500000, ⟨2, 0, 0, 0, 0, true⟩)], [], [], some 0, true, 0, 0, []⟩ := by
    rw [process_line_one_skip _ _ _ _ _ _ 0 hlo rfl (by norm_num [config2]),
        process_bin_learning _ _ _ _ _ _ _ hc rfl]
    norm_num [alistGet, alistSet, BinStats.update]
  have h3 : (⟨[(2400500000, ⟨2, 0, 0, 0, 0, true⟩)], [], [], some 0, true, 0, 0, []⟩ :
        SweepProcessor).process_line config2 2 2400000000 1000000 [0]
      = ⟨[(2400500000, ⟨3, 0, 0, 0, 0, true⟩)], [], [], some 0, true, 0, 0, []⟩ := by
    rw [process_line_one_skip _ _ _ _ _ _ 0 hlo rfl (by norm_num [config2]),
        process_bin_learning _ _ _ _ _ _ _ hc rfl]
    norm_num [alistGet, alistSet, BinStats.update]
  have hfin : (⟨[(2400500000, ⟨3, 0, 0, 0, 0, true⟩)], [], [], some 0, true, 0, 0, []⟩ :
        SweepProcessor).finalize_learning
      = ⟨[(2400500000, ⟨3, 0, 0, 0, 1/10, false⟩)], [], [], some 0, false, 0, 0, []⟩ := by
    norm_num [SweepProcessor.finalize_learning, BinStats.finalize_learning,
      BinStats.variance]
  have hstats : ((alistGet ([(2400500000, (⟨3, 0, 0, 0, 1/10, false⟩ : BinStats))])
        2400500000).getD BinStats.init).update (101/100)
      = ⟨3, 0, 0, 101/10000, 10909899/100000000, false⟩ := by
    norm_num [alistGet, BinStats.update, EMA_ALPHA]
  have hsd : BinStats.stddev ⟨3, 0, 0, 101/10000, 10909899/100000000, false⟩
      = Real.sqrt (((10909899/100000000 : ℚ)) : ℝ) :=
    stddev_tracking_eq _ rfl (by norm_num)
  have hσeq : BinStats.deviation_sigma
        ⟨3, 0, 0, 101/10000, 10909899/100000000, false⟩ (101/100)
      = ((101/100 - (101/10000 : ℚ) : ℚ) : ℝ)
          / Real.sqrt (((10909899/100000000 : ℚ)) : ℝ) := by
    have h := deviation_sigma_eq ⟨3, 0, 0, 101/10000, 10909899/100000000, false⟩
      (101/100) (10909899/100000000) (by norm_num) hsd
    rw [h, show BinStats.current_mean ⟨3, 0, 0, 101/10000, 10909899/100000000, false⟩
        = 101/10000 from rfl]
  have hgt : (config2.anomaly_sigma : ℝ) < BinStats.deviation_sigma
        ⟨3, 0, 0, 101/10000, 10909899/100000000, false⟩ (101/100) := by
    rw [hσeq]
    have hv : (0 : ℝ) < ((10909899/100000000 : ℚ) : ℝ) := by
      exact_mod_cast (by norm_num : (0 : ℚ) < 10909899/100000000)
    rw [show (config2.anomaly_sigma : ℝ) = 3 by norm_num [config2]]
    rw [lt_div_sqrt_iff _ _ _ hv (by norm_num)]
    constructor
    · exact_mod_cast (by norm_num : (0 : ℚ) < 101/100 - 101/10000)
    · push_cast
      norm_num
  have h4 : (⟨[(2400500000, ⟨3, 0, 0, 0, 0, true⟩)], [], [], some 0, true, 0, 0, []⟩ :
        SweepProcessor).process_line config2 300 2400000000 1000000 [101/100]
      = ⟨[(2400500000, ⟨3, 0, 0, 101/10000, 10909899/100000000, false⟩)],
         [(2400500000, 1)], [(2400500000, true)], some 0, false, 0, 1,
         [anomalyObs 300 2400500000 (101/100) (101/10000)
           (BinStats.deviation_sigma
             ⟨3, 0, 0, 101/10000, 10909899/100000000, false⟩ (101/100))]⟩ := by
    rw [process_line_one_fin _ _ _ _ _ _ 0 hlo rfl (by norm_num [config2]), hfin,
        process_bin_tracking _ _ _ _ _ _ _ _ hc rfl hstats,
        check_anomaly_hit_emit _ _ _ _ _ _ _ 1 hgt (by norm_num [alistGet])
          (by norm_num [config2, alistGet])]
    norm_num [alistSet, alistDel, BinStats.current_mean]
  show List.foldl _ _ _ = _
  rw [lines2, List.foldl_cons, h1, List.foldl_cons, h2, List.foldl_cons, h3,
    List.foldl_cons, h4, List.foldl_nil]

theorem run2_sigma_round :
    round1 (BinStats.deviation_sigma
      ⟨3, 0, 0, 101/10000, 10909899/100000000, false⟩ (101/100)) = 3 := by
  have hsd : BinStats.stddev ⟨3, 0, 0, 101/10000, 10909899/100000000, false⟩
      = Real.sqrt (((10909899/100000000 : ℚ)) : ℝ) :=
    stddev_tracking_eq _ rfl (by norm_num)
  have hσeq : BinStats.deviation_sigma
        ⟨3, 0, 0, 101/10000, 10909899/100000000, false⟩ (101/100)
      = ((101/100 - (101/10000 : ℚ) : ℚ) : ℝ)
          / Real.sqrt (((10909899/100000000 : ℚ)) : ℝ) := by
    have h := deviation_sigma_eq ⟨3, 0, 0, 101/10000, 10909899/100000000, false⟩
      (101/100) (10909899/100000000) (by norm_num) hsd
    rw [h, show BinStats.current_mean ⟨3, 0, 0, 101/10000, 10909899/100000000, false⟩
        = 101/10000 from rfl]
  rw [hσeq]
  have hv : (0 : ℝ) < ((10909899/100000000 : ℚ) : ℝ) := by
    exact_mod_cast (by norm_num : (0 : ℚ) < 10909899/100000000)
  have ha : (0 : ℝ) < ((101/100 - (101/10000 : ℚ) : ℚ) : ℝ) := by
    exact_mod_cast (by norm_num : (0 : ℚ) < 101/100 - 101/10000)
  have hlow : (59/20 : ℝ) < ((101/100 - (101/10000 : ℚ) : ℚ) : ℝ)
      / Real.sqrt (((10909899/100000000 : ℚ)) : ℝ) := by
    rw [lt_div_sqrt_iff _ _ _ hv (by norm_num)]
    refine ⟨ha, ?_⟩
    push_cast
    norm_num
  have hhigh : ((101/100 - (101/10000 : ℚ) : ℚ) : ℝ)
      / Real.sqrt (((10909899/100000000 : ℚ)) : ℝ) < 61/20 := by
    rw [div_sqrt_lt_iff _ _ _ hv ha.le (by norm_num)]
    push_cast
    norm_num
  rw [round1_eq_of _ 30 (by push_cast; linarith) (by push_cast; linarith)]
  norm_num

/-- C2 counterexample: with `SWEEP_MIN_STREAK=1` and the default threshold 3,
the run `lines2` emits a `spectrum-anomaly` whose computed sigma ≈ 3.027 is
rounded down to `deviationSigma = 3.0`, which is *not* strictly greater than
the configured threshold 3.0 — refuting the claim about the emitted value. -/
theorem C2_counterexample :
    ((runSweep config2 lines2).emissions.map anomalySigmaOf) = [some 3] ∧
    ¬ ((config2.anomaly_sigma : ℝ) < 3) := by
  constructor
  · rw [run2_state]
    simp only [List.map_cons, List.map_nil, anomalySigmaOf, anomalyObs]
    rw [run2_sigma_round]
  · norm_num [config2]

/-- Witness for C2's amended statement at the concrete run `lines2`. -/
theorem C2_sigma_margin_witness :
    ∃ o ∈ (runSweep config2 lines2).emissions, ∀ fl : AnomalyFields,
      o.fields = ObsFields.anomaly fl →
      (config2.anomaly_sigma : ℝ) - 1 / 20 < fl.deviationSigma := by
  have hm : anomalyObs 300 2400500000 (101/100) (101/10000)
      (BinStats.deviation_sigma
        ⟨3, 0, 0, 101/10000, 10909899/100000000, false⟩ (101/100))
      ∈ (runSweep config2 lines2).emissions := by
    rw [run2_state]
    exact List.mem_singleton.mpr rfl
  exact ⟨_, hm, fun fl hfl => C2_sigma_margin config2 lines2 _ hm fl hfl⟩

/-- Witness for C10 at concrete inputs: the record emitted by the run
`lines2`, one concrete `ble-energy` record, and one concrete `ble-adv` record
(whose `macHash` comes from `hash_mac`). -/
theorem C10_signature_construction_witness :
    (∃ o ∈ (runSweep config2 lines2).emissions, signatureSpec o) ∧
    signatureSpec (energyObs 0 37 2402000000 (-30) (-60) 30 2 200 (-60) 0 0) ∧
    signatureSpec (advObs 0 38 2426000000 (-45) (hash_mac [1, 2, 3, 4, 5, 6])
      (advTypeName 0) true 1 (hash_mac [7]) 0) := by
  have hm : anomalyObs 300 2400500000 (101/100) (101/10000)
      (BinStats.deviation_sigma
        ⟨3, 0, 0, 101/10000, 10909899/100000000, false⟩ (101/100))
      ∈ (runSweep config2 lines2).emissions := by
    rw [run2_state]
    exact List.mem_singleton.mpr rfl
  exact ⟨⟨_, hm, C10_signature_construction.1 config2 lines2 _ hm⟩,
    C10_signature_construction.2.1 0 37 2402000000 (-30) (-60) 30 2 200 (-60) 0 0,
    C10_signature_construction.2.2 0 38 2426000000 (-45) (hash_mac [1, 2, 3, 4, 5, 6])
      (advTypeName 0) true 1 (hash_mac [7]) 0⟩

/-! ## Concrete run 1 (`defaultConfig`, `lines1`): an unpromoted bin emits -/

theorem run1_zero_step (k : ℕ) (t : ℚ) (hk : 2 ≤ k) :
    (⟨[(2400500000, ⟨k, 0, 0, 0, 0, true⟩)], [], [], some 0, false, 0, 0, []⟩ :
      SweepProcessor).process_line defaultConfig t 2400000000 1000000 [0]
      = ⟨[(2400500000, ⟨k + 1, 0, 0, 0, 0, true⟩)], [], [], some 0, false, 0, 0, []⟩ := by
  have hlo : ¬ (2400000000 : ℚ) < 10000000 := by norm_num
  have hc : pyInt ((2400000000 : ℚ) + 1000000 * ((0 : ℕ) : ℚ) + 1000000 / 2)
      = 2400500000 := by
    rw [show ((2400000000 : ℚ) + 1000000 * ((0 : ℕ) : ℚ) + 1000000 / 2)
        = ((2400500000 : ℤ) : ℚ) by norm_num]
    exact pyInt_intCast 2400500000
  rw [process_line_one_skip _ _ _ _ _ _ 0 hlo rfl (by norm_num),
      process_bin_tracking _ _ _ _ _ _ _ (⟨k + 1, 0, 0, 0, 0, true⟩) hc rfl
        (by norm_num [alistGet, BinStats.update])]
  have hvar : BinStats.variance ⟨k + 1, 0, 0, 0, 0, true⟩ = 0 := by
    rw [BinStats.variance, if_neg (show ¬ k + 1 < 2 by omega)]
    norm_num
  have hsd0 : BinStats.stddev ⟨k + 1, 0, 0, 0, 0, true⟩ = 0 :=
    stddev_learning_zero _ rfl hvar
  rw [check_anomaly_miss _ _ _ _ _ _ _
    (by rw [deviation_sigma_of_stddev_zero _ _ hsd0]; norm_num [defaultConfig])]
  norm_num [alistSet, alistDel, alistGet]

theorem run1_states :
    runSweep defaultConfig (lines1.take 2)
      = ⟨[(2400500000, ⟨2, 0, 0, 0, 0, true⟩)], [], [], some 0, true, 0, 0, []⟩ ∧
    runSweep defaultConfig (lines1.take 3)
      = ⟨[(2400500000, ⟨3, 0, 0, 0, 0, true⟩)], [], [], some 0, false, 0, 0, []⟩ ∧
    runSweep defaultConfig lines1
      = ⟨[(2400500000, ⟨12, 11/12, 1091/12, 0, 0, true⟩)], [(2400500000, 2)],
         [(2400500000, true)], some 0, false, 0, 1,
         [anomalyObs 309 2400500000 10 (11/12)
           (BinStats.deviation_sigma ⟨12, 11/12, 1091/12, 0, 0, true⟩ 10)]⟩ := by
  have hlo : ¬ (2400000000 : ℚ) < 10000000 := by norm_num
  have hc : pyInt ((2400000000 : ℚ) + 1000000 * ((0 : ℕ) : ℚ) + 1000000 / 2)
      = 2400500000 := by
    rw [show ((2400000000 : ℚ) + 1000000 * ((0 : ℕ) : ℚ) + 1000000 / 2)
        = ((2400500000 : ℤ) : ℚ) by norm_num]
    exact pyInt_intCast 2400500000
  have h1 : SweepProcessor.init.process_line defaultConfig 0 2400000000 1000000 [0]
      = ⟨[(2400500000, ⟨1, 0, 0, 0, 0, true⟩)], [], [], some 0, true, 0, 0, []⟩ := by
    rw [process_line_one_first _ _ _ _ _ _ hlo rfl
          (by norm_num [defaultConfig, SweepProcessor.init]),
        process_bin_learning _ _ _ _ _ _ _ hc rfl]
    norm_num [SweepProcessor.init, alistGet, alistSet, BinStats.update, BinStats.init]
  have h2 : (⟨[(2400500000, ⟨1, 0, 0, 0, 0, true⟩)], [], [], some 0, true, 0, 0, []⟩ :
        SweepProcessor).process_line defaultConfig 1 2400000000 1000000 [0]
      = ⟨[(2400500000, ⟨2, 0, 0, 0, 0, true⟩)], [], [], some 0, true, 0, 0, []⟩ := by
    rw [process_line_one_skip _ _ _ _ _ _ 0 hlo rfl (by norm_num [defaultConfig]),
        process_bin_learning _ _ _ _ _ _ _ hc rfl]
    norm_num [alistGet, alistSet, BinStats.update]
  have h3 : (⟨[(2400500000, ⟨2, 0, 0, 0, 0, true⟩)], [], [], some 0, true, 0, 0, []⟩ :
        SweepProcessor).process_line defaultConfig 300 2400000000 1000000 [0]
      = ⟨[(2400500000, ⟨3, 0, 0, 0, 0, true⟩)], [], [], some 0, false, 0, 0, []⟩ := by
    rw [process_line_one_fin _ _ _ _ _ _ 0 hlo rfl (by norm_num [defaultConfig]),
        show (⟨[(2400500000, ⟨2, 0, 0, 0, 0, true⟩)], [], [], some 0, true, 0, 0, []⟩ :
            SweepProcessor).finalize_learning
          = ⟨[(2400500000, ⟨2, 0, 0, 0, 0, true⟩)], [], [], some 0, false, 0, 0, []⟩
          by norm_num [SweepProcessor.finalize_learning],
        process_bin_tracking _ _ _ _ _ _ _ (⟨3, 0, 0, 0, 0, true⟩) hc rfl
          (by norm_num [alistGet, BinStats.update])]
    have hsd0 : BinStats.stddev ⟨3, 0, 0, 0, 0, true⟩ = 0 :=
      stddev_learning_zero _ rfl (by norm_num [BinStats.variance])
    rw [check_anomaly_miss _ _ _ _ _ _ _
      (by rw [deviation_sigma_of_stddev_zero _ _ hsd0]; norm_num [defaultConfig])]
    norm_num [alistSet, alistDel, alistGet]
  have h11 : (⟨[(2400500000, ⟨10, 0, 0, 0, 0, true⟩)], [], [], some 0, false, 0, 0, []⟩ :
        SweepProcessor).process_line defaultConfig 308 2400000000 1000000 [1]
      = ⟨[(2400500000, ⟨11, 1/11, 10/11, 0, 0, true⟩)], [(2400500000, 1)], [],
         some 0, false, 0, 0, []⟩ := by
    rw [process_line_one_skip _ _ _ _ _ _ 0 hlo rfl (by norm_num),
        process_bin_tracking _ _ _ _ _ _ _ (⟨11, 1/11, 10/11, 0, 0, true⟩) hc rfl
          (by norm_num [alistGet, BinStats.update])]
    have hvar : BinStats.variance ⟨11, 1/11, 10/11, 0, 0, true⟩ = 1/11 := by
      norm_num [BinStats.variance]
    have hsd : BinStats.stddev ⟨11, 1/11, 10/11, 0, 0, true⟩
        = Real.sqrt (((1/11 : ℚ)) : ℝ) := by
      rw [stddev_learning_eq _ rfl (by rw [hvar]; norm_num), hvar]
    have hσeq : BinStats.deviation_sigma ⟨11, 1/11, 10/11, 0, 0, true⟩ 1
        = ((1 - (1/11 : ℚ) : ℚ) : ℝ) / Real.sqrt (((1/11 : ℚ)) : ℝ) := by
      have h := deviation_sigma_eq ⟨11, 1/11, 10/11, 0, 0, true⟩ 1 (1/11)
        (by norm_num) hsd
      rw [h, show BinStats.current_mean ⟨11, 1/11, 10/11, 0, 0, true⟩
          = 1/11 from rfl]
    have hgt : (defaultConfig.anomaly_sigma : ℝ)
        < BinStats.deviation_sigma ⟨11, 1/11, 10/11, 0, 0, true⟩ 1 := by
      rw [hσeq, show (defaultConfig.anomaly_sigma : ℝ) = 3 by norm_num [defaultConfig]]
      have hv : (0 : ℝ) < ((1/11 : ℚ) : ℝ) := by
        exact_mod_cast (by norm_num : (0 : ℚ) < 1/11)
      rw [lt_div_sqrt_iff _ _ _ hv (by norm_num)]
      refine ⟨by exact_mod_cast (by norm_num : (0 : ℚ) < 1 - 1/11), ?_⟩
      push_cast
      norm_num
    rw [check_anomaly_hit_noemit _ _ _ _ _ _ _ 1 hgt (by norm_num [alistGet])
      (by norm_num [defaultConfig, alistGet])]
    norm_num [alistSet]
  have h12 : (⟨[(2400500000, ⟨11, 1/11, 10/11, 0, 0, true⟩)], [(2400500000, 1)], [],
        some 0, false, 0, 0, []⟩ :
        SweepProcessor).process_line defaultConfig 309 2400000000 1000000 [10]
      = ⟨[(2400500000, ⟨12, 11/12, 1091/12, 0, 0, true⟩)], [(2400500000, 2)],
         [(2400500000, true)], some 0, false, 0, 1,
         [anomalyObs 309 2400500000 10 (11/12)
           (BinStats.deviation_sigma ⟨12, 11/12, 1091/12, 0, 0, true⟩ 10)]⟩ := by
    rw [process_line_one_skip _ _ _ _ _ _ 0 hlo rfl (by norm_num),
        process_bin_tracking _ _ _ _ _ _ _ (⟨12, 11/12, 1091/12, 0, 0, true⟩) hc rfl
          (by norm_num [alistGet, BinStats.update])]
    have hvar : BinStats.variance ⟨12, 11/12, 1091/12, 0, 0, true⟩ = 1091/132 := by
      norm_num [BinStats.variance]
    have hsd : BinStats.stddev ⟨12, 11/12, 1091/12, 0, 0, true⟩
        = Real.sqrt (((1091/132 : ℚ)) : ℝ) := by
      rw [stddev_learning_eq _ rfl (by rw [hvar]; norm_num), hvar]
    have hσeq : BinStats.deviation_sigma ⟨12, 11/12, 1091/12, 0, 0, true⟩ 10
        = ((10 - (11/12 : ℚ) : ℚ) : ℝ) / Real.sqrt (((1091/132 : ℚ)) : ℝ) := by
      have h := deviation_sigma_eq ⟨12, 11/12, 1091/12, 0, 0, true⟩ 10 (1091/132)
        (by norm_num) hsd
      rw [h, show BinStats.current_mean ⟨12, 11/12, 1091/12, 0, 0, true⟩
          = 11/12 from rfl]
    have hgt : (defaultConfig.anomaly_sigma : ℝ)
        < BinStats.deviation_sigma ⟨12, 11/12, 1091/12, 0, 0, true⟩ 10 := by
      rw [hσeq, show (defaultConfig.anomaly_sigma : ℝ) = 3 by norm_num [defaultConfig]]
      have hv : (0 : ℝ) < ((1091/132 : ℚ) : ℝ) := by
        exact_mod_cast (by norm_num : (0 : ℚ) < 1091/132)
      rw [lt_div_sqrt_iff _ _ _ hv (by norm_num)]
      refine ⟨by exact_mod_cast (by norm_num : (0 : ℚ) < 10 - 11/12), ?_⟩
      push_cast
      norm_num
    rw [check_anomaly_hit_emit _ _ _ _ _ _ _ 2 hgt (by norm_num [alistGet])
      (by norm_num [defaultConfig, alistGet])]
    norm_num [alistSet, alistGet, BinStats.current_mean]
  refine ⟨?_, ?_, ?_⟩
  · show List.foldl _ _ _ = _
    rw [show lines1.take 2 = [(0, 2400000000, 1000000, [0]), (1, 2400000000, 1000000, [0])]
        from rfl]
    rw [List.foldl_cons, h1, List.foldl_cons, h2, List.foldl_nil]
  · show List.foldl _ _ _ = _
    rw [show lines1.take 3 = [(0, 2400000000, 1000000, [0]), (1, 2400000000, 1000000, [0]),
        (300, 2400000000, 1000000, [0])] from rfl]
    rw [List.foldl_cons, h1, List.foldl_cons, h2, List.foldl_cons, h3, List.foldl_nil]
  · show List.foldl _ _ _ = _
    rw [lines1, List.foldl_cons, h1, List.foldl_cons, h2, List.foldl_cons, h3,
      List.foldl_cons, run1_zero_step 3 301 (by norm_num),
      List.foldl_cons, run1_zero_step 4 302 (by norm_num),
      List.foldl_cons, run1_zero_step 5 303 (by norm_num),
      List.foldl_cons, run1_zero_step 6 304 (by norm_num),
      List.foldl_cons, run1_zero_step 7 305 (by norm_num),
      List.foldl_cons, run1_zero_step 8 306 (by norm_num),
      List.foldl_cons, run1_zero_step 9 307 (by norm_num),
      List.foldl_cons, h11, List.foldl_cons, h12, List.foldl_nil]

/-- C1 counterexample: on the run `lines1`, the learning phase ends at the
third line while the (only) bin holds 2 samples, so the bin is never promoted
(`learning` stays `true` at the end of the run) — and yet the run emits
exactly one `spectrum-anomaly` record, refuting "…and never produces a
spectrum-anomaly observation afterwards". -/
theorem C1_counterexample :
    (runSweep defaultConfig lines1).emissions.length = 1 ∧
    ((runSweep defaultConfig lines1).emissions.map Obs.protocol)
      = [("spectrum-anomaly")] ∧
    ((alistGet (runSweep defaultConfig lines1).bins 2400500000).map BinStats.learning)
      = some true ∧
    (runSweep defaultConfig (lines1.take 2)).learning = true ∧
    ((alistGet (runSweep defaultConfig (lines1.take 2)).bins 2400500000).map
      BinStats.count) = some 2 ∧
    (runSweep defaultConfig (lines1.take 3)).learning = false := by
  obtain ⟨hp2, hp3, hfull⟩ := run1_states
  rw [hfull, hp2, hp3]
  refine ⟨rfl, ?_, ?_, rfl, ?_, rfl⟩
  · simp [anomalyObs]
  · simp [alistGet]
  · simp [alistGet]

/-- Witness for C4 at the concrete run `lines1` (default threshold 3 ≥ 0):
its emitted anomaly is a `power-spike`. -/
theorem C4_power_spike_witness :
    0 ≤ defaultConfig.anomaly_sigma ∧
    (∃ o ∈ (runSweep defaultConfig lines1).emissions, ∀ fl : AnomalyFields,
      o.fields = ObsFields.anomaly fl → fl.anomalyType = "power-spike") := by
  have hm : anomalyObs 309 2400500000 10 (11/12)
      (BinStats.deviation_sigma ⟨12, 11/12, 1091/12, 0, 0, true⟩ 10)
      ∈ (runSweep defaultConfig lines1).emissions := by
    rw [run1_states.2.2]
    exact List.mem_singleton.mpr rfl
  exact ⟨by norm_num [defaultConfig], _, hm,
    fun fl hfl => C4_power_spike defaultConfig lines1
      (by norm_num [defaultConfig]) _ hm fl hfl⟩

/-! ## Concrete run 3 (`defaultConfig`, `lines3`): oscillating deviations -/

theorem run3_states :
    runSweep defaultConfig (lines3.take 4)
      = ⟨[(2400500000, ⟨3, 0, 0, 1/10, 1089/1000, false⟩)], [(2400500000, 1)], [],
         some 0, false, 0, 0, []⟩ ∧
    runSweep defaultConfig (lines3.take 5)
      = ⟨[(2400500000, ⟨3, 0, 0, -1/1000, 2088009/1000000, false⟩)], [], [],
         some 0, false, 0, 0, []⟩ ∧
    runSweep defaultConfig lines3
      = ⟨[(2400500000, ⟨3, 0, 0, 9901/100000, 30573269199/10000000000, false⟩)],
         [(2400500000, 1)], [], some 0, false, 0, 0, []⟩ := by
  have hlo : ¬ (2400000000 : ℚ) < 10000000 := by norm_num
  have hc : pyInt ((2400000000 : ℚ) + 1000000 * ((0 : ℕ) : ℚ) + 1000000 / 2)
      = 2400500000 := by
    rw [show ((2400000000 : ℚ) + 1000000 * ((0 : ℕ) : ℚ) + 1000000 / 2)
        = ((2400500000 : ℤ) : ℚ) by norm_num]
    exact pyInt_intCast 2400500000
  have h1 : SweepProcessor.init.process_line defaultConfig 0 2400000000 1000000 [0]
      = ⟨[(2400500000, ⟨1, 0, 0, 0, 0, true⟩)], [], [], some 0, true, 0, 0, []⟩ := by
    rw [process_line_one_first _ _ _ _ _ _ hlo rfl
          (by norm_num [defaultConfig, SweepProcessor.init]),
        process_bin_learning _ _ _ _ _ _ _ hc rfl]
    norm_num [SweepProcessor.init, alistGet, alistSet, BinStats.update, BinStats.init]
  have h2 : (⟨[(2400500000, ⟨1, 0, 0, 0, 0, true⟩)], [], [], some 0, true, 0, 0, []⟩ :
        SweepProcessor).process_line defaultConfig 1 2400000000 1000000 [0]
      = ⟨[(2400500000, ⟨2, 0, 0, 0, 0, true⟩)], [], [], some 0, true, 0, 0, []⟩ := by
    rw [process_line_one_skip _ _ _ _ _ _ 0 hlo rfl (by norm_num [defaultConfig]),
        process_bin_learning _ _ _ _ _ _ _ hc rfl]
    norm_num [alistGet, alistSet, BinStats.update]
  have h3 : (⟨[(2400500000, ⟨2, 0, 0, 0, 0, true⟩)], [], [], some 0, true, 0, 0, []⟩ :
        SweepProcessor).process_line defaultConfig 2 2400000000 1000000 [0]
      = ⟨[(2400500000, ⟨3, 0, 0, 0, 0, true⟩)], [], [], some 0, true, 0, 0, []⟩ := by
    rw [process_line_one_skip _ _ _ _ _ _ 0 hlo rfl (by norm_num [defaultConfig]),
        process_bin_learning _ _ _ _ _ _ _ hc rfl]
    norm_num [alistGet, alistSet, BinStats.update]
  have h4 : (⟨[(2400500000, ⟨3, 0, 0, 0, 0, true⟩)], [], [], some 0, true, 0, 0, []⟩ :
        SweepProcessor).process_line defaultConfig 300 2400000000 1000000 [10]
      = ⟨[(2400500000, ⟨3, 0, 0, 1/10, 1089/1000, false⟩)], [(2400500000, 1)], [],
         some 0, false, 0, 0, []⟩ := by
    rw [process_line_one_fin _ _ _ _ _ _ 0 hlo rfl (by norm_num [defaultConfig]),
        show (⟨[(2400500000, ⟨3, 0, 0, 0, 0, true⟩)], [], [], some 0, true, 0, 0, []⟩ :
            SweepProcessor).finalize_learning
          = ⟨[(2400500000, ⟨3, 0, 0, 0, 1/10, false⟩)], [], [], some 0, false, 0, 0, []⟩
          by norm_num [SweepProcessor.finalize_learning, BinStats.finalize_learning,
            BinStats.variance],
        process_bin_tracking _ _ _ _ _ _ _ (⟨3, 0, 0, 1/10, 1089/1000, false⟩) hc rfl
          (by norm_num [alistGet, BinStats.update, EMA_ALPHA])]
    have hsd : BinStats.stddev ⟨3, 0, 0, 1/10, 1089/1000, false⟩
        = Real.sqrt (((1089/1000 : ℚ)) : ℝ) :=
      stddev_tracking_eq _ rfl (by norm_num)
    have hσeq : BinStats.deviation_sigma ⟨3, 0, 0, 1/10, 1089/1000, false⟩ 10
        = ((10 - (1/10 : ℚ) : ℚ) : ℝ) / Real.sqrt (((1089/1000 : ℚ)) : ℝ) := by
      have h := deviation_sigma_eq ⟨3, 0, 0, 1/10, 1089/1000, false⟩ 10 (1089/1000)
        (by norm_num) hsd
      rw [h, show BinStats.current_mean ⟨3, 0, 0, 1/10, 1089/1000, false⟩
          = 1/10 from rfl]
    have hgt : (defaultConfig.anomaly_sigma : ℝ)
        < BinStats.deviation_sigma ⟨3, 0, 0, 1/10, 1089/1000, false⟩ 10 := by
      rw [hσeq, show (defaultConfig.anomaly_sigma : ℝ) = 3 by norm_num [defaultConfig]]
      have hv : (0 : ℝ) < ((1089/1000 : ℚ) : ℝ) := by
        exact_mod_cast (by norm_num : (0 : ℚ) < 1089/1000)
      rw [lt_div_sqrt_iff _ _ _ hv (by norm_num)]
      refine ⟨by exact_mod_cast (by norm_num : (0 : ℚ) < 10 - 1/10), ?_⟩
      push_cast
      norm_num
    rw [check_anomaly_hit_noemit _ _ _ _ _ _ _ 1 hgt (by norm_num [alistGet])
      (by norm_num [defaultConfig, alistGet])]
    norm_num [alistSet]
  have hσ5 : BinStats.deviation_sigma ⟨3, 0, 0, -1/1000, 2088009/1000000, false⟩ (-10)
      = ((-10 - (-1/1000 : ℚ) : ℚ) : ℝ)
          / Real.sqrt (((2088009/1000000 : ℚ)) : ℝ) := by
    have hsd : BinStats.stddev ⟨3, 0, 0, -1/1000, 2088009/1000000, false⟩
        = Real.sqrt (((2088009/1000000 : ℚ)) : ℝ) :=
      stddev_tracking_eq _ rfl (by norm_num)
    have h := deviation_sigma_eq ⟨3, 0, 0, -1/1000, 2088009/1000000, false⟩ (-10)
      (2088009/1000000) (by norm_num) hsd
    rw [h, show BinStats.current_mean ⟨3, 0, 0, -1/1000, 2088009/1000000, false⟩
        = -1/1000 from rfl]
  have h5 : (⟨[(2400500000, ⟨3, 0, 0, 1/10, 1089/1000, false⟩)], [(2400500000, 1)], [],
        some 0, false, 0, 0, []⟩ :
        SweepProcessor).process_line defaultConfig 301 2400000000 1000000 [-10]
      = ⟨[(2400500000, ⟨3, 0, 0, -1/1000, 2088009/1000000, false⟩)], [], [],
         some 0, false, 0, 0, []⟩ := by
    rw [process_line_one_skip _ _ _ _ _ _ 0 hlo rfl (by norm_num),
        process_bin_tracking _ _ _ _ _ _ _ (⟨3, 0, 0, -1/1000, 2088009/1000000, false⟩)
          hc rfl (by norm_num [alistGet, BinStats.update, EMA_ALPHA])]
    have hmiss : ¬ (defaultConfig.anomaly_sigma : ℝ)
        < BinStats.deviation_sigma ⟨3, 0, 0, -1/1000, 2088009/1000000, false⟩ (-10) := by
      rw [hσ5, show (defaultConfig.anomaly_sigma : ℝ) = 3 by norm_num [defaultConfig]]
      intro hcon
      have hle : ((-10 - (-1/1000 : ℚ) : ℚ) : ℝ)
          / Real.sqrt (((2088009/1000000 : ℚ)) : ℝ) ≤ 0 := by
        apply div_nonpos_iff.mpr
        right
        refine ⟨?_, Real.sqrt_nonneg _⟩
        exact_mod_cast (by norm_num : (-10 - (-1/1000 : ℚ) : ℚ) ≤ 0)
      linarith
    rw [check_anomaly_miss _ _ _ _ _ _ _ hmiss]
    norm_num [alistSet, alistDel, alistGet]
  have h6 : (⟨[(2400500000, ⟨3, 0, 0, -1/1000, 2088009/1000000, false⟩)], [], [],
        some 0, false, 0, 0, []⟩ :
        SweepProcessor).process_line defaultConfig 302 2400000000 1000000 [10]
      = ⟨[(2400500000, ⟨3, 0, 0, 9901/100000, 30573269199/10000000000, false⟩)],
         [(2400500000, 1)], [], some 0, false, 0, 0, []⟩ := by
    rw [process_line_one_skip _ _ _ _ _ _ 0 hlo rfl (by norm_num),
        process_bin_tracking _ _ _ _ _ _ _
          (⟨3, 0, 0, 9901/100000, 30573269199/10000000000, false⟩)
          hc rfl (by norm_num [alistGet, BinStats.update, EMA_ALPHA])]
    have hsd : BinStats.stddev ⟨3, 0, 0, 9901/100000, 30573269199/10000000000, false⟩
        = Real.sqrt (((30573269199/10000000000 : ℚ)) : ℝ) :=
      stddev_tracking_eq _ rfl (by norm_num)
    have hσeq : BinStats.deviation_sigma
          ⟨3, 0, 0, 9901/100000, 30573269199/10000000000, false⟩ 10
        = ((10 - (9901/100000 : ℚ) : ℚ) : ℝ)
            / Real.sqrt (((30573269199/10000000000 : ℚ)) : ℝ) := by
      have h := deviation_sigma_eq
        ⟨3, 0, 0, 9901/100000, 30573269199/10000000000, false⟩ 10
        (30573269199/10000000000) (by norm_num) hsd
      rw [h, show BinStats.current_mean
          ⟨3, 0, 0, 9901/100000, 30573269199/10000000000, false⟩
          = 9901/100000 from rfl]
    have hgt : (defaultConfig.anomaly_sigma : ℝ) < BinStats.deviation_sigma
          ⟨3, 0, 0, 9901/100000, 30573269199/10000000000, false⟩ 10 := by
      rw [hσeq, show (defaultConfig.anomaly_sigma : ℝ) = 3 by norm_num [defaultConfig]]
      have hv : (0 : ℝ) < ((30573269199/10000000000 : ℚ) : ℝ) := by
        exact_mod_cast (by norm_num : (0 : ℚ) < 30573269199/10000000000)
      rw [lt_div_sqrt_iff _ _ _ hv (by norm_num)]
      refine ⟨by exact_mod_cast (by norm_num : (0 : ℚ) < 10 - 9901/100000), ?_⟩
      push_cast
      norm_num
    rw [check_anomaly_hit_noemit _ _ _ _ _ _ _ 1 hgt (by norm_num [alistGet])
      (by norm_num [defaultConfig, alistGet])]
    norm_num [alistSet, alistGet]
  refine ⟨?_, ?_, ?_⟩
  · show List.foldl _ _ _ = _
    rw [show lines3.take 4 = [(0, 2400000000, 1000000, [0]), (1, 2400000000, 1000000, [0]),
        (2, 2400000000, 1000000, [0]), (300, 2400000000, 1000000, [10])] from rfl]
    rw [List.foldl_cons, h1, List.foldl_cons, h2, List.foldl_cons, h3,
      List.foldl_cons, h4, List.foldl_nil]
  · show List.foldl _ _ _ = _
    rw [show lines3.take 5 = [(0, 2400000000, 1000000, [0]), (1, 2400000000, 1000000, [0]),
        (2, 2400000000, 1000000, [0]), (300, 2400000000, 1000000, [10]),
        (301, 2400000000, 1000000, [-10])] from rfl]
    rw [List.foldl_cons, h1, List.foldl_cons, h2, List.foldl_cons, h3,
      List.foldl_cons, h4, List.foldl_cons, h5, List.foldl_nil]
  · show List.foldl _ _ _ = _
    rw [lines3, List.foldl_cons, h1, List.foldl_cons, h2, List.foldl_cons, h3,
      List.foldl_cons, h4, List.foldl_cons, h5, List.foldl_cons, h6, List.foldl_nil]

/-- C3 counterexample: on `lines3` (readings 10, −10, 10 after a baseline of
0 with variance floored at 0.1), the first reading sets the streak to 1, the
second reading has sigma < −3 — a large *negative* deviation, not a return to
within the threshold — yet it resets the streak, and the run ends with streak
1 and no emission.  Had the streak kept accumulating across the polarity
flips, it would have reached `min_streak = 2` and emitted. -/
theorem C3_counterexample :
    (runSweep defaultConfig lines3).emissions = [] ∧
    alistGet (runSweep defaultConfig lines3).streaks 2400500000 = some 1 ∧
    alistGet (runSweep defaultConfig (lines3.take 5)).streaks 2400500000 = none ∧
    alistGet (runSweep defaultConfig (lines3.take 4)).streaks 2400500000 = some 1 ∧
    (((alistGet (runSweep defaultConfig (lines3.take 4)).bins 2400500000).getD
        BinStats.init).update (-10)).deviation_sigma (-10) < -3 := by
  obtain ⟨hp4, hp5, hfull⟩ := run3_states
  refine ⟨by rw [hfull], by rw [hfull]; simp [alistGet], by rw [hp5]; simp [alistGet],
    by rw [hp4]; simp [alistGet], ?_⟩
  have hupd : ((alistGet [((2400500000 : ℤ), (⟨3, 0, 0, 1/10, 1089/1000, false⟩ : BinStats))]
        2400500000).getD BinStats.init).update (-10)
      = ⟨3, 0, 0, -1/1000, 2088009/1000000, false⟩ := by
    norm_num [alistGet, BinStats.update, EMA_ALPHA]
  have hbins : (runSweep defaultConfig (lines3.take 4)).bins
      = [((2400500000 : ℤ), (⟨3, 0, 0, 1/10, 1089/1000, false⟩ : BinStats))] := by
    rw [hp4]
  rw [hbins, hupd]
  have hsd : BinStats.stddev ⟨3, 0, 0, -1/1000, 2088009/1000000, false⟩
      = Real.sqrt (((2088009/1000000 : ℚ)) : ℝ) :=
    stddev_tracking_eq _ rfl (by norm_num)
  have hσeq : BinStats.deviation_sigma
        ⟨3, 0, 0, -1/1000, 2088009/1000000, false⟩ (-10)
      = ((-10 - (-1/1000 : ℚ) : ℚ) : ℝ)
          / Real.sqrt (((2088009/1000000 : ℚ)) : ℝ) := by
    have h := deviation_sigma_eq ⟨3, 0, 0, -1/1000, 2088009/1000000, false⟩ (-10)
      (2088009/1000000) (by norm_num) hsd
    rw [h, show BinStats.current_mean ⟨3, 0, 0, -1/1000, 2088009/1000000, false⟩
        = -1/1000 from rfl]
  rw [hσeq]
  have hv : (0 : ℝ) < ((2088009/1000000 : ℚ) : ℝ) := by
    exact_mod_cast (by norm_num : (0 : ℚ) < 2088009/1000000)
  rw [show (-3 : ℝ) = -(3 : ℝ) from rfl, div_sqrt_lt_neg_iff _ _ _ hv (by norm_num)]
  refine ⟨by exact_mod_cast (by norm_num : (-10 - (-1/1000 : ℚ) : ℚ) < 0), ?_⟩
  push_cast
  norm_num

end Sigint
